import Mathlib

/-!
Shallow embedding of the v3d-tool glTF-to-V3D converter
(src/v3d-tool/src/main.rs) and verification of the specification claims.

Modelling conventions:
* the scalar type of `f32` values is a parameter `α` (instantiated with `ℝ`
  for claims about real geometry and with `ℚ` for concrete evaluations);
  square root is passed explicitly as a function argument `sqrt`, since the
  claims that depend on it are settled at `Real.sqrt`;
* the byte output of the writers is modelled at field granularity: a
  `Field α` denotes a fixed group of output bytes (`Field.size` many), with
  little-endian serialization left abstract; padding and offsets are
  byte-accurate via `Field.size`;
* Rust `Result`/`?` is `Except Err`, `panic!`/`unwrap`/`expect`/`assert!`
  is `Err.panic`, `create_custom_error` is `Err.validation`;
* `eprintln!` diagnostics (soft degradations) have no effect on the result
  and are not modelled.
-/

namespace V3D

/-- Failure taxonomy: `validation` models errors created with
`create_custom_error` (recoverable `std::io::Error` values propagated
with `?`), `panic` models `panic!` / `unwrap` / `expect` / `assert!`
terminations. -/
inductive Err where
  | validation (msg : String)
  | panic (msg : String)
deriving DecidableEq

/-- One group of output bytes produced by the byte writers of main.rs.
`f32le v` stands for the 4 little-endian bytes of an `f32` write,
`chars s n` for the UTF-8 bytes of `s` padded with NULs to exactly `n`
bytes (`write_char_array`), `str s` for the raw UTF-8 bytes of `s`,
`raw bs` for a literal byte slice written with `write_all`. -/
inductive Field (α : Type) where
  | u8 (v : Nat)
  | u16le (v : Nat)
  | u32le (v : Nat)
  | i16le (v : Int)
  | i32le (v : Int)
  | f32le (v : α)
  | chars (s : String) (size : Nat)
  | str (s : String)
  | raw (bs : List Nat)
deriving DecidableEq

/-- Number of bytes a field occupies in the output. -/
def Field.size {α : Type} : Field α → Nat
  | u8 _ => 1
  | u16le _ => 2
  | u32le _ => 4
  | i16le _ => 2
  | i32le _ => 4
  | f32le _ => 4
  | chars _ n => n
  | str s => s.utf8ByteSize
  | raw bs => bs.length

/-- Total byte size of a writer buffer (`Vec<u8>::len`). -/
def bufSize {α : Type} (l : List (Field α)) : Nat :=
  (l.map Field.size).sum

/-- Rust `?`-propagation on `Except`. -/
def ebind {β γ : Type} (e : Except Err β) (f : β → Except Err γ) : Except Err γ :=
  match e with
  | .error err => .error err
  | .ok v => f v

/-- Rust `Option::unwrap` / `expect`. -/
def unwrapOr {β : Type} (o : Option β) (msg : String) : Except Err β :=
  match o with
  | some v => .ok v
  | none => .error (.panic msg)

/-- Rust slice indexing `l[i]`, which panics when out of bounds. -/
def idxPanic {β : Type} (l : List β) (i : Nat) : Except Err β :=
  unwrapOr l[i]? "index out of bounds"

/-- Rust `assert!(cond, msg)`. -/
def rustAssert (cond : Bool) (msg : String) : Except Err Unit :=
  if cond then .ok () else .error (.panic msg)

/-- Rust `usize -> u16` `try_into().unwrap()`. -/
def tryIntoU16 (n : Nat) : Except Err Nat :=
  if n < 65536 then .ok n else .error (.panic "u16 conversion failed")

/-- Rust `usize -> u8` `try_into().unwrap()`. -/
def tryIntoU8 (n : Nat) : Except Err Nat :=
  if n < 256 then .ok n else .error (.panic "u8 conversion failed")

/-- Closed form of `write_v3d_mesh_data_padding` (main.rs:194): push zero
bytes until the buffer length is a multiple of 16. -/
def pad16 {α : Type} (buf : List (Field α)) : List (Field α) :=
  buf ++ List.replicate ((16 - bufSize buf % 16) % 16) (Field.u8 0)

/-! ## Texture names (main.rs:538-560) -/

/-- `change_texture_ext_to_tga` (main.rs:538): truncate at the first `.`
(or keep the whole name when there is none) and append `.tga`. Stated on
the character list underlying the string. -/
def change_texture_ext_to_tga (name : String) : String :=
  String.mk (name.data.takeWhile (fun c => c ≠ '.')) ++ ".tga"

/-- glTF sampler wrapping modes used by the converter. -/
inductive WrappingMode where
  | ClampToEdge
  | MirroredRepeat
  | Repeat
deriving DecidableEq

/-- glTF sampler: S and T wrapping modes. -/
structure Sampler where
  wrap_s : WrappingMode
  wrap_t : WrappingMode
deriving DecidableEq

/-- Base-color texture of a material: the referenced image's optional
embedded name, its optional URI source, and the sampler. -/
structure TextureInfo where
  image_name : Option String
  image_uri : Option String
  sampler : Sampler
deriving DecidableEq

/-- glTF material alpha modes. -/
inductive AlphaMode where
  | Opaque
  | Mask
  | Blend
deriving DecidableEq

/-- glTF material as consumed by the converter. -/
structure Material (α : Type) where
  base_color_texture : Option TextureInfo
  alpha_mode : AlphaMode
  double_sided : Bool
  emissive_factor : α × α × α

/-- `get_material_base_color_texture_name` (main.rs:545): prefer the
image's embedded name, then its URI, else the default texture name (with
a diagnostic, not modelled). -/
def get_material_base_color_texture_name {α : Type} (material : Material α) : String :=
  match material.base_color_texture with
  | some tex =>
    match tex.image_name with
    | some img_name => change_texture_ext_to_tga img_name
    | none =>
      match tex.image_uri with
      | some uri => change_texture_ext_to_tga uri
      | none => "Rck_Default.tga"
  | none => "Rck_Default.tga"

/-- Lexicographic strict comparison of character lists by code point,
modelling Rust's `String` ordering (UTF-8 byte order coincides with code
point order). -/
def charListLt : List Char → List Char → Bool
  | _, [] => false
  | [], _ :: _ => true
  | a :: as, b :: bs =>
    if a.toNat < b.toNat then true
    else if b.toNat < a.toNat then false
    else charListLt as bs

/-- Strict ordering on strings used by the sort. -/
def strLt (a b : String) : Bool :=
  charListLt a.data b.data

/-- Insertion step of the stable string sort that models `Vec::sort`. -/
def insertStr (x : String) : List String → List String
  | [] => [x]
  | y :: ys => if strLt x y then x :: y :: ys else y :: insertStr x ys

/-- Stable insertion sort on strings, modelling `Vec::<String>::sort()`
(main.rs:44). -/
def sortStrs : List String → List String
  | [] => []
  | x :: xs => insertStr x (sortStrs xs)

/-- Removal of consecutive duplicates, modelling `Vec::dedup()`
(main.rs:45). -/
def dedupConsec : List String → List String
  | [] => []
  | [x] => [x]
  | x :: y :: rest =>
    if x = y then dedupConsec (y :: rest) else x :: dedupConsec (y :: rest)

/-! ## Geometry (main.rs:26-29, 111-162, 201-235) -/

/-- `Vector3 = [f32; 3]`. -/
structure Vec3 (α : Type) where
  x : α
  y : α
  z : α
deriving DecidableEq

/-- `Matrix3 = [[f32; 3]; 3]`, row major. -/
structure Matrix3 (α : Type) where
  m00 : α
  m01 : α
  m02 : α
  m10 : α
  m11 : α
  m12 : α
  m20 : α
  m21 : α
  m22 : α
deriving DecidableEq

/-- `Matrix4 = [[f32; 4]; 4]`, row major. -/
structure Matrix4 (α : Type) where
  m00 : α
  m01 : α
  m02 : α
  m03 : α
  m10 : α
  m11 : α
  m12 : α
  m13 : α
  m20 : α
  m21 : α
  m22 : α
  m23 : α
  m30 : α
  m31 : α
  m32 : α
  m33 : α
deriving DecidableEq

/-- `get_vector_len` (main.rs:111): Euclidean length via the supplied
square-root function. -/
def get_vector_len {α : Type} [LinearOrderedField α] (sqrt : α → α) (v : Vec3 α) : α :=
  sqrt (v.x * v.x + v.y * v.y + v.z * v.z)

/-- `transform_vector` (main.rs:133): apply the linear 3×3 map. -/
def transform_vector {α : Type} [LinearOrderedField α] (pt : Vec3 α) (t : Matrix3 α) : Vec3 α :=
  ⟨pt.x * t.m00 + pt.y * t.m10 + pt.z * t.m20,
   pt.x * t.m01 + pt.y * t.m11 + pt.z * t.m21,
   pt.x * t.m02 + pt.y * t.m12 + pt.z * t.m22⟩

/-- `transform_point` (main.rs:142): identical to `transform_vector`
because translation is intentionally excluded. -/
def transform_point {α : Type} [LinearOrderedField α] (pt : Vec3 α) (t : Matrix3 α) : Vec3 α :=
  transform_vector pt t

/-- `transform_normal` (main.rs:147): apply the linear map, then divide by
the length of the result. -/
def transform_normal {α : Type} [LinearOrderedField α] (sqrt : α → α) (n : Vec3 α) (t : Matrix3 α) : Vec3 α :=
  let tn := transform_vector n t
  let l := get_vector_len sqrt tn
  ⟨tn.x / l, tn.y / l, tn.z / l⟩

/-- `extract_translation_from_matrix` (main.rs:154): translation is the
fourth row, the linear part is the upper-left 3×3 block. -/
def extract_translation_from_matrix {α : Type} (transform : Matrix4 α) : Vec3 α × Matrix3 α :=
  (⟨transform.m30, transform.m31, transform.m32⟩,
   ⟨transform.m00, transform.m01, transform.m02,
    transform.m10, transform.m11, transform.m12,
    transform.m20, transform.m21, transform.m22⟩)

/-- Identity 3×3 linear map, the input referenced by the spec's
testable-property sentence about the transform functions. -/
def identity_matrix3 {α : Type} [LinearOrderedField α] : Matrix3 α :=
  ⟨1, 0, 0, 0, 1, 0, 0, 0, 1⟩

/-- `compute_triangle_normal` (main.rs:201): normalized cross product of
the edge vectors. -/
def compute_triangle_normal {α : Type} [LinearOrderedField α] (sqrt : α → α)
    (p0 p1 p2 : Vec3 α) : Vec3 α :=
  let t0 : Vec3 α := ⟨p1.x - p0.x, p1.y - p0.y, p1.z - p0.z⟩
  let t1 : Vec3 α := ⟨p2.x - p1.x, p2.y - p1.y, p2.z - p1.z⟩
  let n : Vec3 α := ⟨t0.y * t1.z - t0.z * t1.y,
                     t0.z * t1.x - t0.x * t1.z,
                     t0.x * t1.y - t0.y * t1.x⟩
  let len := get_vector_len sqrt n
  ⟨n.x / len, n.y / len, n.z / len⟩

/-- `Plane = [f32; 4]`. -/
structure Plane (α : Type) where
  a : α
  b : α
  c : α
  d : α
deriving DecidableEq

/-- `compute_triangle_plane` (main.rs:218). -/
def compute_triangle_plane {α : Type} [LinearOrderedField α] (sqrt : α → α)
    (p0 p1 p2 : Vec3 α) : Plane α :=
  let n := compute_triangle_normal sqrt p0 p1 p2
  ⟨n.x, n.y, n.z, -(n.x * p0.x + n.y * p0.y + n.z * p0.z)⟩

/-- Rust `f32::signum` restricted to non-NaN inputs: 1 for non-negative
values (positive zero included), -1 otherwise. -/
def fsignum {α : Type} [LinearOrderedField α] (x : α) : α :=
  if 0 ≤ x then 1 else -1

/-- `generate_uv` (main.rs:224): cube-projection fallback UVs from the
untransformed local position and normal. -/
def generate_uv {α : Type} [LinearOrderedField α] (pos n : Vec3 α) : α × α :=
  if |n.x| ≥ max |n.y| |n.z| then
    (pos.x + pos.z * fsignum n.x, pos.y)
  else if |n.y| ≥ max |n.x| |n.z| then
    (pos.x * fsignum n.y, pos.z)
  else
    (pos.z + pos.x * fsignum n.z, pos.y)

/-! ## Document data model (read-only glTF accessor view) -/

/-- glTF primitive draw modes. -/
inductive Mode where
  | Points
  | Lines
  | LineLoop
  | LineStrip
  | Triangles
  | TriangleStrip
  | TriangleFan
deriving DecidableEq

/-- One glTF primitive, as seen through the accessor readers the converter
uses: optional position / normal / first-UV-channel / index streams, the
material and the draw mode. An absent stream models an absent accessor. -/
structure Primitive (α : Type) where
  positions : Option (List (Vec3 α))
  normals : Option (List (Vec3 α))
  tex_coords : Option (List (α × α))
  indices : Option (List Nat)
  material : Material α
  mode : Mode

/-- A glTF mesh: its ordered primitive list. -/
structure Mesh (α : Type) where
  primitives : List (Primitive α)

/-- A glTF node: name, local transform and optional mesh reference. -/
structure Node (α : Type) where
  name : Option String
  transform : Matrix4 α
  mesh : Option (Mesh α)

/-- `get_primitive_vertex_count` (main.rs:72): count of the positions
accessor, or 0 when absent. -/
def get_primitive_vertex_count {α : Type} (prim : Primitive α) : Nat :=
  (prim.positions.map List.length).getD 0

/-- `count_mesh_vertices` (main.rs:76). -/
def count_mesh_vertices {α : Type} (mesh : Mesh α) : Nat :=
  (mesh.primitives.map (fun p => get_primitive_vertex_count p)).sum

/-- `get_submesh_textures` (main.rs:39): resolved texture names of all
primitives of the node's mesh, sorted and with consecutive duplicates
removed. The `unwrap` of the mesh reference panics on a mesh-less node. -/
def get_submesh_textures {α : Type} (node : Node α) : Except Err (List String) :=
  ebind (unwrapOr node.mesh "called Option unwrap on a None value") fun mesh =>
    .ok (dedupConsec (sortStrs
      (mesh.primitives.map (fun prim => get_material_base_color_texture_name prim.material))))

/-! ## Bounds calculator (main.rs:115-131, 164-171) -/

/-- Loop of `compute_mesh_bounding_sphere_radius` (main.rs:117-129): fold
the running maximum of the lengths of the transformed positions over the
primitives; a primitive without positions panics. -/
def bounding_sphere_fold {α : Type} [LinearOrderedField α] (sqrt : α → α)
    (t : Matrix3 α) (radius : α) : List (Primitive α) → Except Err α
  | [] => .ok radius
  | prim :: rest =>
    match prim.positions with
    | some ps =>
      bounding_sphere_fold sqrt t
        (ps.foldl (fun r pos => max r (get_vector_len sqrt (transform_point pos t))) radius) rest
    | none => .error (.panic "mesh has no positions")

/-- `compute_mesh_bounding_sphere_radius` (main.rs:115). Note that the
supplied origin is not an argument: the distance taken is the plain length
of each transformed position. -/
def compute_mesh_bounding_sphere_radius {α : Type} [LinearOrderedField α] (sqrt : α → α)
    (mesh : Mesh α) (t : Matrix3 α) : Except Err α :=
  bounding_sphere_fold sqrt t 0 mesh.primitives

/-- Claim-side variant, following the words of the specification sentence
"radius = max Euclidean distance from the supplied origin to any
transformed vertex": identical fold, but measuring each transformed vertex
from `origin`. Used only to compare the claim against the code. -/
def spec_bounding_sphere_fold {α : Type} [LinearOrderedField α] (sqrt : α → α)
    (origin : Vec3 α) (t : Matrix3 α) (radius : α) : List (Primitive α) → Except Err α
  | [] => .ok radius
  | prim :: rest =>
    match prim.positions with
    | some ps =>
      spec_bounding_sphere_fold sqrt origin t
        (ps.foldl (fun r pos =>
          let tp := transform_point pos t
          max r (get_vector_len sqrt ⟨tp.x - origin.x, tp.y - origin.y, tp.z - origin.z⟩)) radius) rest
    | none => .error (.panic "mesh has no positions")

/-- Claim-side radius measured from the supplied origin (see
`spec_bounding_sphere_fold`). -/
def spec_bounding_sphere_radius {α : Type} [LinearOrderedField α] (sqrt : α → α)
    (origin : Vec3 α) (mesh : Mesh α) (t : Matrix3 α) : Except Err α :=
  spec_bounding_sphere_fold sqrt origin t 0 mesh.primitives

/-- `write_v3d_bounding_sphere` (main.rs:164): computes the radius, then
writes the origin followed by the radius. -/
def write_v3d_bounding_sphere {α : Type} [LinearOrderedField α] (sqrt : α → α)
    (mesh : Mesh α) (origin : Vec3 α) (t : Matrix3 α) : Except Err (List (Field α)) :=
  ebind (compute_mesh_bounding_sphere_radius sqrt mesh t) fun radius =>
    .ok [Field.f32le origin.x, Field.f32le origin.y, Field.f32le origin.z, Field.f32le radius]

/-! ## Render state packing (main.rs:339-436) -/

/-- `compute_render_state_for_material` (main.rs:400). The enumerator
values are inlined: Wrap = 1, Clamp = 2, ColorOp::Mul = 2,
AlphaOp::Mul = 3, AlphaBlend::None = 0, AlphaBlend::AlphaBlendAlpha = 3,
ZbufferType::Full = 4, ZbufferType::FullAlphaTest = 5, FogType::Type0 = 0. -/
def compute_render_state_for_material {α : Type} (material : Material α) : Nat :=
  let tex_src : Nat :=
    match material.base_color_texture with
    | some tex_info =>
      if tex_info.sampler.wrap_s = WrappingMode.ClampToEdge then 2 else 1
    | none => 1
  let color_op : Nat := 2
  let alpha_op : Nat := 3
  let alpha_blend : Nat := if material.alpha_mode = AlphaMode.Blend then 3 else 0
  let zbuffer_type : Nat := if material.alpha_mode = AlphaMode.Opaque then 4 else 5
  let fog : Nat := 0
  tex_src ||| (color_op <<< 5) ||| (alpha_op <<< 10) ||| (alpha_blend <<< 15) |||
    (zbuffer_type <<< 20) ||| (fog <<< 25)

/-- Claim-side packing formula, following the words of the claim: plain
sums of the shifted fields with the case analysis the claim states. -/
def packRenderStateSpec {α : Type} (material : Material α) : Nat :=
  (match material.base_color_texture with
   | some tex_info =>
     if tex_info.sampler.wrap_s = WrappingMode.ClampToEdge then 2 else 1
   | none => 1)
  + 2 * 2 ^ 5
  + 3 * 2 ^ 10
  + (if material.alpha_mode = AlphaMode.Blend then 3 else 0) * 2 ^ 15
  + (if material.alpha_mode = AlphaMode.Opaque then 4 else 5) * 2 ^ 20
  + 0 * 2 ^ 25

/-! ## Mesh batch encoder (main.rs:180-337) -/

/-- `write_f32_slice` applied to a `Vector3` (main.rs:65). -/
def write_f32_vec3 {α : Type} (v : Vec3 α) : List (Field α) :=
  [Field.f32le v.x, Field.f32le v.y, Field.f32le v.z]

/-- UV fallback loop of `write_v3d_batch_data` (main.rs:262-267): for each
vertex index, read the untransformed position and normal (slice indexing,
panics out of bounds) and synthesize a UV pair. -/
def uv_fallback {α : Type} [LinearOrderedField α]
    (positions normals : List (Vec3 α)) : List Nat → Except Err (List (Field α))
  | [] => .ok []
  | i :: rest =>
    ebind (idxPanic positions i) fun p =>
    ebind (idxPanic normals i) fun n =>
    ebind (uv_fallback positions normals rest) fun restF =>
      let uv := generate_uv p n
      .ok ([Field.f32le uv.1, Field.f32le uv.2] ++ restF)

/-- Index-writing loop of `write_v3d_batch_data` (main.rs:276-283):
per index triple, three `u16` conversions (each panics at 65536 and
above) and a flags word with bit 0x20 for double-sided materials. A
trailing chunk shorter than three indices panics on the chunk indexing. -/
def writeTriangles {α : Type} (double_sided : Bool) : List Nat → Except Err (List (Field α))
  | [] => .ok []
  | i0 :: i1 :: i2 :: rest =>
    ebind (tryIntoU16 i0) fun a =>
    ebind (tryIntoU16 i1) fun b =>
    ebind (tryIntoU16 i2) fun c =>
    ebind (writeTriangles double_sided rest) fun restF =>
      let tri_flags : Nat := if double_sided then 0x20 else 0
      .ok ([Field.u16le a, Field.u16le b, Field.u16le c, Field.u16le tri_flags] ++ restF)
  | _ => .error (.panic "index out of bounds")

/-- Triangle-plane loop of `write_v3d_batch_data` (main.rs:288-294): per
index triple, read the three positions by raw slice indexing (panics out
of bounds), transform them and write the plane. -/
def writePlanes {α : Type} [LinearOrderedField α] (sqrt : α → α)
    (positions : List (Vec3 α)) (t : Matrix3 α) : List Nat → Except Err (List (Field α))
  | [] => .ok []
  | i0 :: i1 :: i2 :: rest =>
    ebind (idxPanic positions i0) fun q0 =>
    ebind (idxPanic positions i1) fun q1 =>
    ebind (idxPanic positions i2) fun q2 =>
    ebind (writePlanes sqrt positions t rest) fun restF =>
      let plane := compute_triangle_plane sqrt
        (transform_point q0 t) (transform_point q1 t) (transform_point q2 t)
      .ok ([Field.f32le plane.a, Field.f32le plane.b, Field.f32le plane.c, Field.f32le plane.d]
        ++ restF)
  | _ => .error (.panic "index out of bounds")

/-- The seven data sub-blocks of one primitive written by
`write_v3d_batch_data` (main.rs:237-321), in write order: transformed
positions, transformed normals, UVs, indices with flags, triangle planes,
same-position offsets (all zero), bone links (all zero). Unwraps and
asserts occur in the source order. -/
def writeBatchBlocks {α : Type} [LinearOrderedField α] (sqrt : α → α)
    (prim : Primitive α) (t : Matrix3 α) : Except Err (List (List (Field α))) :=
  ebind (unwrapOr prim.positions "called Option unwrap on a None value") fun positions =>
  ebind (unwrapOr prim.normals "called Option unwrap on a None value") fun normals =>
  ebind (match prim.tex_coords with
         | some uvs => .ok (uvs.flatMap (fun uv => [Field.f32le uv.1, Field.f32le uv.2]))
         | none => uv_fallback positions normals (List.range positions.length)) fun uvBlock =>
  ebind (unwrapOr prim.indices "mesh has no indices") fun indices =>
  ebind (rustAssert (decide (indices.length % 3 = 0))
          ("number of indices is not a multiple of three: " ++ toString indices.length)) fun _ =>
  ebind (writeTriangles prim.material.double_sided indices) fun triBlock =>
  ebind (writePlanes sqrt positions t indices) fun planesBlock =>
    let num_vertices := get_primitive_vertex_count prim
    .ok [positions.flatMap (fun pos => write_f32_vec3 (transform_point pos t)),
         normals.flatMap (fun n => write_f32_vec3 (transform_normal sqrt n t)),
         uvBlock,
         triBlock,
         planesBlock,
         List.replicate num_vertices (Field.i16le 0),
         List.replicate num_vertices (Field.raw (List.replicate 8 0))]

/-- `write_v3d_batch_data` (main.rs:237): append each sub-block to the
buffer, padding to a 16-byte boundary after each one. -/
def write_v3d_batch_data {α : Type} [LinearOrderedField α] (sqrt : α → α)
    (buf : List (Field α)) (prim : Primitive α) (t : Matrix3 α) : Except Err (List (Field α)) :=
  ebind (writeBatchBlocks sqrt prim t) fun blocks =>
    .ok (blocks.foldl (fun b blk => pad16 (b ++ blk)) buf)

/-- Rust `Iterator::position`: index of the first element satisfying the
test. -/
def positionIdx {β : Type} (p : β → Bool) : List β → Option Nat
  | [] => none
  | x :: xs => if p x then some 0 else (positionIdx p xs).map (fun i => i + 1)

/-- `write_v3d_batch_header` (main.rs:180): 0x20 reserved zero bytes, the
4-byte little-endian index of the primitive's resolved texture name in the
supplied texture list (`position` + `expect`), 0x14 reserved zero bytes. -/
def write_v3d_batch_header {α : Type} (buf : List (Field α)) (prim : Primitive α)
    (textures : List String) : Except Err (List (Field α)) :=
  let texture_name := get_material_base_color_texture_name prim.material
  ebind (unwrapOr (positionIdx (fun tn => tn = texture_name) textures) "find texture") fun texture_idx =>
    .ok (buf ++ [Field.raw (List.replicate 0x20 0), Field.i32le (Int.ofNat texture_idx),
                 Field.raw (List.replicate 0x14 0)])

/-- Header loop of `create_v3d_mesh_data` (main.rs:325-327). -/
def foldHeaders {α : Type} (textures : List String) (buf : List (Field α)) :
    List (Primitive α) → Except Err (List (Field α))
  | [] => .ok buf
  | prim :: rest =>
    ebind (write_v3d_batch_header buf prim textures) fun b =>
      foldHeaders textures b rest

/-- Batch-data loop of `create_v3d_mesh_data` (main.rs:330-332). -/
def foldBatchData {α : Type} [LinearOrderedField α] (sqrt : α → α) (t : Matrix3 α)
    (buf : List (Field α)) : List (Primitive α) → Except Err (List (Field α))
  | [] => .ok buf
  | prim :: rest =>
    ebind (write_v3d_batch_data sqrt buf prim t) fun b =>
      foldBatchData sqrt t b rest

/-- `create_v3d_mesh_data` (main.rs:323): batch headers for all
primitives, padding, batch data for all primitives, final padding. -/
def create_v3d_mesh_data {α : Type} [LinearOrderedField α] (sqrt : α → α)
    (mesh : Mesh α) (t : Matrix3 α) (textures : List String) : Except Err (List (Field α)) :=
  ebind (foldHeaders textures [] mesh.primitives) fun hdrs =>
  ebind (foldBatchData sqrt t (pad16 hdrs) mesh.primitives) fun buf =>
    .ok (pad16 buf)

/-! ## Batch info and LOD model (main.rs:438-511) -/

/-- `write_v3d_batch_info` (main.rs:438): per-primitive validation (draw
mode, presence of indices, index and vertex limits) followed by the eight
batch-info fields. Note the vertex guard compares against 6000 while the
message reports `vertex_limit = 6000 - 768`. -/
def write_v3d_batch_info {α : Type} (prim : Primitive α) : Except Err (List (Field α)) :=
  if prim.mode ≠ Mode.Triangles then
    .error (.validation "only triangle list primitives are supported")
  else
    ebind (match prim.indices with
           | some is => .ok is
           | none => .error (.validation "not indexed geometry is not supported")) fun is =>
    let index_count := is.length
    ebind (rustAssert (decide (index_count % 3 = 0))
            ("number of indices is not a multiple of three: " ++ toString index_count)) fun _ =>
    let tri_count := index_count / 3
    let index_limit := 10000 - 768
    if index_count > index_limit then
      .error (.validation ("primitive has too many indices: " ++ toString index_count ++
        " (limit " ++ toString index_limit ++ ")"))
    else
      let vertex_count := get_primitive_vertex_count prim
      let vertex_limit := 6000 - 768
      if vertex_count > 6000 then
        .error (.validation ("primitive has too many vertices: " ++ toString vertex_count ++
          " (limit " ++ toString vertex_limit ++ ")"))
      else
        ebind (tryIntoU16 vertex_count) fun f0 =>
        ebind (tryIntoU16 tri_count) fun f1 =>
        ebind (tryIntoU16 (vertex_count * 3 * 4)) fun f2 =>
        ebind (tryIntoU16 (tri_count * 4 * 2)) fun f3 =>
        ebind (tryIntoU16 (vertex_count * 2)) fun f4 =>
        ebind (tryIntoU16 (vertex_count * 2 * 4)) fun f5 =>
        ebind (tryIntoU16 (vertex_count * 2 * 4)) fun f6 =>
          .ok [Field.u16le f0, Field.u16le f1, Field.u16le f2, Field.u16le f3,
               Field.u16le f4, Field.u16le f5, Field.u16le f6,
               Field.u32le (compute_render_state_for_material prim.material)]

/-- `write_v3d_lod_texture` (main.rs:472): the texture's index in the
node's deduplicated texture table as a `u8`, the name bytes, and a NUL. -/
def write_v3d_lod_texture {α : Type} (textures : List String) (tex_name : String) :
    Except Err (List (Field α)) :=
  ebind (unwrapOr (positionIdx (fun tn => tn = tex_name) textures)
          "called Option unwrap on a None value") fun id =>
  ebind (tryIntoU8 id) fun id8 =>
    .ok [Field.u8 id8, Field.str tex_name, Field.u8 0]

/-- Sequential writer loop: run `f` on each element and concatenate the
written fields, stopping at the first failure. -/
def eachAppend {α β : Type} (f : β → Except Err (List (Field α))) :
    List β → Except Err (List (Field α))
  | [] => .ok []
  | b :: rest =>
    ebind (f b) fun fs =>
    ebind (eachAppend f rest) fun restF =>
      .ok (fs ++ restF)

/-- The per-primitive resolved texture-name list `lod_textures` built by
`write_v3d_lod_model` (main.rs:487): one entry per primitive, in primitive
order, neither sorted nor deduplicated. -/
def lodTexturesOf {α : Type} (mesh : Mesh α) : List String :=
  mesh.primitives.map (fun prim => get_material_base_color_texture_name prim.material)

/-- `write_v3d_lod_model` (main.rs:480): flags, vertex count, batch count,
encoded data section, batch infos, prop-point count, then the LOD texture
list — rejected with a validation error when `lod_textures` (one entry per
primitive) has more than `MAX_TEXTURES = 7` entries. `textures` is the
node's deduplicated texture table used for the per-texture ids. -/
def write_v3d_lod_model {α : Type} [LinearOrderedField α] (sqrt : α → α)
    (mesh : Mesh α) (textures : List String) (t : Matrix3 α) : Except Err (List (Field α)) :=
  let pre : List (Field α) :=
    [Field.u32le 0x20, Field.u32le (count_mesh_vertices mesh % 4294967296),
     Field.u16le (mesh.primitives.length % 65536)]
  let lod_textures := lodTexturesOf mesh
  ebind (create_v3d_mesh_data sqrt mesh t lod_textures) fun batch_data =>
  ebind (eachAppend write_v3d_batch_info mesh.primitives) fun infos =>
    let max_textures := 7
    if lod_textures.length > max_textures then
      .error (.validation ("found " ++ toString lod_textures.length ++
        " textures in a submesh but only " ++ toString max_textures ++ " are allowed"))
    else
      ebind (eachAppend (write_v3d_lod_texture textures) lod_textures) fun texFields =>
        .ok (pre ++ [Field.u32le (bufSize batch_data % 4294967296)] ++ batch_data ++
             [Field.i32le (-1)] ++ infos ++ [Field.u32le 0] ++
             [Field.u32le (lod_textures.length % 4294967296)] ++ texFields)

/-! ## Material records (main.rs:513-536) -/

/-- `write_char_array` (main.rs:513): the string's UTF-8 bytes NUL-padded
to `size` bytes; a validation error when the byte length is not strictly
below `size`. -/
def write_char_array {α : Type} (string : String) (size : Nat) : Except Err (List (Field α)) :=
  if string.utf8ByteSize ≥ size then
    .error (.validation ("string value " ++ string ++ " is too long (max " ++
      toString (size - 1) ++ ")"))
  else
    .ok [Field.chars string size]

/-- `write_v3d_material` (main.rs:524): 32-byte NUL-padded texture name,
emissive factor, three zero floats, a 32-byte zero region, and the
trailing `u32` flags field with value 0x11. -/
def write_v3d_material {α : Type} [Zero α] (tex_name : String) (emissive_factor : α) :
    Except Err (List (Field α)) :=
  ebind (write_char_array tex_name 32) fun name =>
    .ok (name ++ [Field.f32le emissive_factor, Field.f32le 0, Field.f32le 0, Field.f32le 0,
                  Field.raw (List.replicate 32 0), Field.u32le 0x11])

/-! ## Boundary-offset observer for the alignment claim

`create_v3d_mesh_data_with_boundaries` re-runs `create_v3d_mesh_data`
while also recording the byte offset of the data-section buffer after
every padding step: after the batch headers, after each of the seven
sub-blocks of every primitive, and after the final padding. The claim
theorem proves its first component equal to the plain encoder output. -/

/-- One padded block append together with its recorded boundary offset. -/
def appendBlockB {α : Type} (s : List (Field α) × List Nat) (blk : List (Field α)) :
    List (Field α) × List Nat :=
  let b := pad16 (s.1 ++ blk)
  (b, s.2 ++ [bufSize b])

/-- `write_v3d_batch_data` with boundary recording. -/
def write_v3d_batch_dataB {α : Type} [LinearOrderedField α] (sqrt : α → α)
    (s : List (Field α) × List Nat) (prim : Primitive α) (t : Matrix3 α) :
    Except Err (List (Field α) × List Nat) :=
  ebind (writeBatchBlocks sqrt prim t) fun blocks =>
    .ok (blocks.foldl appendBlockB s)

/-- Batch-data loop with boundary recording. -/
def foldBatchDataB {α : Type} [LinearOrderedField α] (sqrt : α → α) (t : Matrix3 α)
    (s : List (Field α) × List Nat) : List (Primitive α) → Except Err (List (Field α) × List Nat)
  | [] => .ok s
  | prim :: rest =>
    ebind (write_v3d_batch_dataB sqrt s prim t) fun b =>
      foldBatchDataB sqrt t b rest

/-- `create_v3d_mesh_data` with boundary recording. -/
def create_v3d_mesh_data_with_boundaries {α : Type} [LinearOrderedField α] (sqrt : α → α)
    (mesh : Mesh α) (t : Matrix3 α) (textures : List String) :
    Except Err (List (Field α) × List Nat) :=
  ebind (foldHeaders textures [] mesh.primitives) fun hdrs =>
  ebind (foldBatchDataB sqrt t (pad16 hdrs, [bufSize (pad16 hdrs)]) mesh.primitives) fun s =>
    .ok (pad16 s.1, s.2 ++ [bufSize (pad16 s.1)])

/-! ## Concrete inputs used for evaluations -/

/-- A material without a base-color texture (resolves to the default
texture name), opaque and single-sided. -/
def plainMaterial : Material ℚ :=
  { base_color_texture := none
    alpha_mode := AlphaMode.Opaque
    double_sided := false
    emissive_factor := (0, 0, 0) }

/-- A material whose base-color texture's image is embedded under the
given name. -/
def texturedMaterial (img_name : String) : Material ℚ :=
  { base_color_texture := some
      { image_name := some img_name
        image_uri := none
        sampler := { wrap_s := WrappingMode.Repeat, wrap_t := WrappingMode.Repeat } }
    alpha_mode := AlphaMode.Opaque
    double_sided := false
    emissive_factor := (0, 0, 0) }

/-- A minimal valid triangle-list primitive over the given material: one
vertex, one (degenerate) triangle, explicit UVs. -/
def tinyPrim (m : Material ℚ) : Primitive ℚ :=
  { positions := some [⟨0, 0, 0⟩]
    normals := some [⟨0, 0, 1⟩]
    tex_coords := some [(0, 0)]
    indices := some [0, 0, 0]
    material := m
    mode := Mode.Triangles }

/-- A list of `n` zero vectors, used to build large vertex streams. -/
def zeroVec3s (n : Nat) : List (Vec3 ℚ) :=
  List.replicate n ⟨0, 0, 0⟩

/-- A primitive with 5233 vertices and one valid triangle: one more vertex
than the documented limit of 5232, within the coded guard of 6000. -/
def prim5233 : Primitive ℚ :=
  { positions := some (zeroVec3s 5233)
    normals := some []
    tex_coords := none
    indices := some [0, 0, 0]
    material := plainMaterial
    mode := Mode.Triangles }

/-- A primitive with 6001 vertices: one more than the coded guard. -/
def prim6001 : Primitive ℚ :=
  { positions := some (zeroVec3s 6001)
    normals := some []
    tex_coords := none
    indices := some [0, 0, 0]
    material := plainMaterial
    mode := Mode.Triangles }

/-- Eight primitives that all resolve to the single texture name
`x.tga`. -/
def mesh8 : Mesh ℚ :=
  ⟨List.replicate 8 (tinyPrim (texturedMaterial "x.png"))⟩

/-- Identity node transform. -/
def idMatrix4 : Matrix4 ℚ :=
  ⟨1, 0, 0, 0, 0, 1, 0, 0, 0, 0, 1, 0, 0, 0, 0, 1⟩

/-- Node holding `mesh8`. -/
def node8 : Node ℚ :=
  { name := some "node8", transform := idMatrix4, mesh := some mesh8 }

/-- Two primitives whose resolved texture names are `b.tga` then `a.tga`:
primitive order is the reverse of the sorted order. -/
def meshBA : Mesh ℚ :=
  ⟨[tinyPrim (texturedMaterial "b.png"), tinyPrim (texturedMaterial "a.png")]⟩

/-- Node holding `meshBA`. -/
def nodeBA : Node ℚ :=
  { name := some "nodeBA", transform := idMatrix4, mesh := some meshBA }

/-- One-primitive mesh over the default material. -/
def mesh1 : Mesh ℚ :=
  ⟨[tinyPrim plainMaterial]⟩

/-- Node holding `mesh1`. -/
def node1 : Node ℚ :=
  { name := some "node1", transform := idMatrix4, mesh := some mesh1 }

/-- A primitive with positions, normals and UVs but no index accessor. -/
def primNoIndices : Primitive ℚ :=
  { positions := some [⟨0, 0, 0⟩]
    normals := some [⟨0, 0, 1⟩]
    tex_coords := some [(0, 0)]
    indices := none
    material := plainMaterial
    mode := Mode.Triangles }

/-- Mesh holding only `primNoIndices`. -/
def meshNoIndices : Mesh ℚ :=
  ⟨[primNoIndices]⟩

/-- A primitive whose index list contains the value 1 although it has a
single position. -/
def primOobIndex : Primitive ℚ :=
  { positions := some [⟨0, 0, 0⟩]
    normals := some [⟨0, 0, 1⟩]
    tex_coords := some [(0, 0)]
    indices := some [0, 0, 1]
    material := plainMaterial
    mode := Mode.Triangles }

/-- Real-valued material, texture-less. -/
def plainMaterialR : Material ℝ :=
  { base_color_texture := none
    alpha_mode := AlphaMode.Opaque
    double_sided := false
    emissive_factor := (0, 0, 0) }

/-- Real-valued mesh with one vertex at position (1,0,0). -/
def meshUnitX : Mesh ℝ :=
  ⟨[{ positions := some [⟨1, 0, 0⟩]
      normals := some []
      tex_coords := none
      indices := none
      material := plainMaterialR
      mode := Mode.Triangles }]⟩

/-- Real-valued mesh with one vertex at the coordinate origin. -/
def meshZero : Mesh ℝ :=
  ⟨[{ positions := some [⟨0, 0, 0⟩]
      normals := some []
      tex_coords := none
      indices := none
      material := plainMaterialR
      mode := Mode.Triangles }]⟩

/-- Real node transform whose translation row is (1,0,0) over an identity
linear block. -/
def translatedMatrix4 : Matrix4 ℝ :=
  ⟨1, 0, 0, 0, 0, 1, 0, 0, 0, 0, 1, 0, 1, 0, 0, 1⟩

/-! ## Infrastructure lemmas -/

theorem ebind_ok_iff {β γ : Type} {e : Except Err β} {f : β → Except Err γ} {c : γ} :
    ebind e f = .ok c ↔ ∃ b, e = .ok b ∧ f b = .ok c := by
  cases e <;> simp [ebind]

theorem ebind_error_iff {β γ : Type} {e : Except Err β} {f : β → Except Err γ} {err : Err} :
    ebind e f = .error err ↔ e = .error err ∨ ∃ b, e = .ok b ∧ f b = .error err := by
  cases e <;> simp [ebind]

theorem unwrapOr_ok_iff {β : Type} {o : Option β} {msg : String} {b : β} :
    unwrapOr o msg = .ok b ↔ o = some b := by
  cases o <;> simp [unwrapOr]

theorem unwrapOr_error_panic {β : Type} {o : Option β} {msg : String} {e : Err}
    (h : unwrapOr o msg = .error e) : e = .panic msg := by
  cases o <;> simp [unwrapOr] at h
  exact h.symm

theorem idxPanic_ok_iff {β : Type} {l : List β} {i : Nat} {b : β} :
    idxPanic l i = .ok b ↔ l[i]? = some b := by
  simp [idxPanic, unwrapOr_ok_iff]

theorem idxPanic_ok_lt {β : Type} {l : List β} {i : Nat} {b : β}
    (h : idxPanic l i = .ok b) : i < l.length := by
  rw [idxPanic_ok_iff] at h
  exact (List.getElem?_eq_some.mp h).1

theorem idxPanic_ok_of_lt {β : Type} {l : List β} {i : Nat} (h : i < l.length) :
    idxPanic l i = .ok l[i] := by
  rw [idxPanic_ok_iff]
  exact List.getElem?_eq_getElem h

theorem idxPanic_error_panic {β : Type} {l : List β} {i : Nat} {e : Err}
    (h : idxPanic l i = .error e) : ∃ m, e = .panic m := by
  exact ⟨_, unwrapOr_error_panic h⟩

theorem tryIntoU16_error_panic {n : Nat} {e : Err} (h : tryIntoU16 n = .error e) :
    ∃ m, e = .panic m := by
  by_cases hn : n < 65536 <;> simp [tryIntoU16, hn] at h
  exact ⟨_, h.symm⟩

theorem rustAssert_error_panic {c : Bool} {msg : String} {e : Err}
    (h : rustAssert c msg = .error e) : ∃ m, e = .panic m := by
  cases c <;> simp [rustAssert] at h
  exact ⟨_, h.symm⟩

theorem bufSize_cons {α : Type} (f : Field α) (l : List (Field α)) :
    bufSize (f :: l) = f.size + bufSize l := by
  simp [bufSize]

theorem bufSize_append {α : Type} (a b : List (Field α)) :
    bufSize (a ++ b) = bufSize a + bufSize b := by
  simp [bufSize]

theorem bufSize_replicate_u8 {α : Type} (n : Nat) :
    bufSize (List.replicate n (Field.u8 (α := α) 0)) = n := by
  induction n with
  | zero => rfl
  | succ k ih =>
    simp only [List.replicate_succ, bufSize_cons, ih, Field.size]
    omega

theorem bufSize_pad16 {α : Type} (buf : List (Field α)) : bufSize (pad16 buf) % 16 = 0 := by
  simp only [pad16, bufSize_append, bufSize_replicate_u8]
  omega

theorem pad16_extends {α : Type} (buf : List (Field α)) : ∃ tail, pad16 buf = buf ++ tail :=
  ⟨_, rfl⟩

theorem positionIdx_of_mem {a : String} {l : List String} (h : a ∈ l) :
    ∃ i, positionIdx (fun s => s = a) l = some i ∧ i < l.length := by
  induction l with
  | nil => cases h
  | cons x xs ih =>
    by_cases hx : x = a
    · exact ⟨0, by simp [positionIdx, hx], by simp⟩
    · have hmem : a ∈ xs := by
        rcases List.mem_cons.mp h with h1 | h2
        · exact absurd h1.symm hx
        · exact h2
      obtain ⟨i, hi, hlt⟩ := ih hmem
      refine ⟨i + 1, by simp [positionIdx, hx, hi], by simp; omega⟩

theorem positionIdx_lt_length {β : Type} {p : β → Bool} {l : List β} {i : Nat}
    (h : positionIdx p l = some i) : i < l.length := by
  induction l generalizing i with
  | nil => simp [positionIdx] at h
  | cons x xs ih =>
    simp only [positionIdx] at h
    by_cases hx : p x
    · simp [hx] at h
      simp [← h]
    · simp [hx] at h
      cases hp : positionIdx p xs with
      | none => rw [hp] at h; simp at h
      | some j =>
        rw [hp] at h
        simp at h
        have := ih hp
        simp [← h]
        omega

theorem mem_insertStr {a x : String} {l : List String} :
    a ∈ insertStr x l ↔ a = x ∨ a ∈ l := by
  induction l with
  | nil => simp [insertStr]
  | cons y ys ih =>
    by_cases hxy : strLt x y = true
    · simp [insertStr, hxy]
    · simp [insertStr, hxy, ih]
      tauto

theorem mem_sortStrs {a : String} {l : List String} : a ∈ sortStrs l ↔ a ∈ l := by
  induction l with
  | nil => simp [sortStrs]
  | cons x xs ih => simp [sortStrs, mem_insertStr, ih]

theorem length_insertStr (x : String) (l : List String) :
    (insertStr x l).length = l.length + 1 := by
  induction l with
  | nil => simp [insertStr]
  | cons y ys ih =>
    by_cases hxy : strLt x y = true <;> simp [insertStr, hxy, ih]

theorem length_sortStrs (l : List String) : (sortStrs l).length = l.length := by
  induction l with
  | nil => rfl
  | cons x xs ih => simp [sortStrs, length_insertStr, ih]

theorem mem_dedupConsec {a : String} {l : List String} : a ∈ dedupConsec l ↔ a ∈ l := by
  induction l with
  | nil => simp [dedupConsec]
  | cons x xs ih =>
    cases xs with
    | nil => simp [dedupConsec]
    | cons y ys =>
      by_cases hxy : x = y
      · subst hxy
        simp [dedupConsec, ih]
      · simp [dedupConsec, hxy, ih]

theorem length_dedupConsec_le (l : List String) : (dedupConsec l).length ≤ l.length := by
  induction l with
  | nil => simp [dedupConsec]
  | cons x xs ih =>
    cases xs with
    | nil => simp [dedupConsec]
    | cons y ys =>
      by_cases hxy : x = y
      · subst hxy
        simp only [dedupConsec, if_pos rfl]
        calc (dedupConsec (x :: ys)).length ≤ (x :: ys).length := ih
          _ ≤ (x :: x :: ys).length := by simp
      · simp only [dedupConsec, if_neg hxy, List.length_cons]
        have := ih
        simp only [List.length_cons] at this ⊢
        omega

theorem le_foldl_max {β α : Type} [LinearOrder α] (f : β → α) (l : List β) (a : α) :
    a ≤ l.foldl (fun r v => max r (f v)) a := by
  induction l generalizing a with
  | nil => simp
  | cons x xs ih =>
    calc a ≤ max a (f x) := le_max_left _ _
      _ ≤ xs.foldl (fun r v => max r (f v)) (max a (f x)) := ih _
      _ = (x :: xs).foldl (fun r v => max r (f v)) a := by simp

theorem foldl_max_of_mem {β α : Type} [LinearOrder α] {f : β → α} {l : List β} {v : β}
    (h : v ∈ l) (a : α) : f v ≤ l.foldl (fun r v => max r (f v)) a := by
  induction l generalizing a with
  | nil => cases h
  | cons x xs ih =>
    rcases List.mem_cons.mp h with h1 | h2
    · subst h1
      calc f v ≤ max a (f v) := le_max_right _ _
        _ ≤ xs.foldl (fun r w => max r (f w)) (max a (f v)) := le_foldl_max _ _ _
        _ = (v :: xs).foldl (fun r w => max r (f w)) a := by simp
    · have := ih h2 (max a (f x))
      simpa using this

theorem foldl_max_eq_or {β α : Type} [LinearOrder α] (f : β → α) (l : List β) (a : α) :
    l.foldl (fun r v => max r (f v)) a = a ∨
      ∃ v ∈ l, l.foldl (fun r v => max r (f v)) a = f v := by
  induction l generalizing a with
  | nil => left; rfl
  | cons x xs ih =>
    have hfold : (x :: xs).foldl (fun r v => max r (f v)) a
        = xs.foldl (fun r v => max r (f v)) (max a (f x)) := by simp
    rcases ih (max a (f x)) with h | ⟨v, hv, he⟩
    · rcases max_cases a (f x) with ⟨he2, _⟩ | ⟨he2, _⟩
      · left
        rw [hfold, h, he2]
      · right
        exact ⟨x, by simp, by rw [hfold, h, he2]⟩
    · right
      exact ⟨v, by simp [hv], by rw [hfold]; exact he⟩

/-! ## Encoder lemmas -/

theorem foldl_pad_append_extends {α : Type} (blocks : List (List (Field α))) :
    ∀ buf : List (Field α),
    ∃ tail, blocks.foldl (fun b blk => pad16 (b ++ blk)) buf = buf ++ tail := by
  induction blocks with
  | nil => exact fun buf => ⟨[], by simp⟩
  | cons blk bs ih =>
    intro buf
    obtain ⟨t1, ht1⟩ := pad16_extends (buf ++ blk)
    obtain ⟨t2, ht2⟩ := ih (pad16 (buf ++ blk))
    refine ⟨blk ++ t1 ++ t2, ?_⟩
    rw [List.foldl_cons, ht2, ht1]
    simp [List.append_assoc]

theorem write_v3d_batch_data_extends {α : Type} [LinearOrderedField α] {sqrt : α → α}
    {buf : List (Field α)} {prim : Primitive α} {t : Matrix3 α} {out : List (Field α)}
    (h : write_v3d_batch_data sqrt buf prim t = .ok out) : ∃ tail, out = buf ++ tail := by
  rw [write_v3d_batch_data, ebind_ok_iff] at h
  obtain ⟨blocks, _, hout⟩ := h
  obtain ⟨tail, ht⟩ := foldl_pad_append_extends blocks buf
  exact ⟨tail, by simp only [Except.ok.injEq] at hout; rw [← hout, ht]⟩

theorem foldBatchData_extends {α : Type} [LinearOrderedField α] {sqrt : α → α} {t : Matrix3 α} :
    ∀ {l : List (Primitive α)} {buf out : List (Field α)},
    foldBatchData sqrt t buf l = .ok out → ∃ tail, out = buf ++ tail := by
  intro l
  induction l with
  | nil =>
    intro buf out h
    simp only [foldBatchData, Except.ok.injEq] at h
    exact ⟨[], by simp [h]⟩
  | cons p rest ih =>
    intro buf out h
    rw [foldBatchData, ebind_ok_iff] at h
    obtain ⟨b1, hb1, hrest⟩ := h
    obtain ⟨t1, ht1⟩ := write_v3d_batch_data_extends hb1
    obtain ⟨t2, ht2⟩ := ih hrest
    exact ⟨t1 ++ t2, by rw [ht2, ht1, List.append_assoc]⟩

theorem foldHeaders_ok_of_mem {α : Type} (textures : List String) :
    ∀ (l : List (Primitive α)) (buf : List (Field α)),
    (∀ q ∈ l, get_material_base_color_texture_name q.material ∈ textures) →
    ∃ b, foldHeaders textures buf l = .ok b := by
  intro l
  induction l with
  | nil => exact fun buf _ => ⟨buf, rfl⟩
  | cons p rest ih =>
    intro buf h
    obtain ⟨i, hi, _⟩ := positionIdx_of_mem (h p (by simp))
    obtain ⟨b, hb⟩ := ih
      (buf ++ [Field.raw (List.replicate 0x20 0), Field.i32le (Int.ofNat i),
               Field.raw (List.replicate 0x14 0)])
      (fun q hq => h q (List.mem_cons_of_mem _ hq))
    refine ⟨b, ?_⟩
    simp only [foldHeaders, write_v3d_batch_header, hi, unwrapOr, ebind, hb]

theorem foldHeaders_ok_structure {α : Type} {textures : List String} :
    ∀ (l : List (Primitive α)) (buf b : List (Field α)),
    foldHeaders textures buf l = .ok b →
    ∃ hs : List (List (Field α)),
      b = buf ++ hs.flatten ∧ hs.length = l.length ∧
      (∀ x ∈ hs, x.length = 3) ∧
      ∀ (k : Nat) (p : Primitive α), l[k]? = some p →
        ∃ j, positionIdx (fun tn => tn = get_material_base_color_texture_name p.material)
               textures = some j ∧
          hs[k]? = some [Field.raw (List.replicate 0x20 0), Field.i32le (Int.ofNat j),
                         Field.raw (List.replicate 0x14 0)] := by
  intro l
  induction l with
  | nil =>
    intro buf b h
    simp only [foldHeaders, Except.ok.injEq] at h
    refine ⟨[], by simp [h], rfl, by simp, ?_⟩
    intro k p hk
    simp at hk
  | cons p rest ih =>
    intro buf b h
    rw [foldHeaders, ebind_ok_iff] at h
    obtain ⟨b1, hb1, hrest⟩ := h
    rw [write_v3d_batch_header, ebind_ok_iff] at hb1
    obtain ⟨j, hj, hb1ok⟩ := hb1
    rw [unwrapOr_ok_iff] at hj
    simp only [Except.ok.injEq] at hb1ok
    obtain ⟨hs, hbeq, hlen, helem, hidx⟩ := ih b1 b hrest
    refine ⟨[Field.raw (List.replicate 0x20 0), Field.i32le (Int.ofNat j),
             Field.raw (List.replicate 0x14 0)] :: hs, ?_, by simp [hlen], ?_, ?_⟩
    · rw [hbeq, ← hb1ok]
      simp [List.append_assoc]
    · intro x hx
      rcases List.mem_cons.mp hx with h1 | h2
      · simp [h1]
      · exact helem x h2
    · intro k q hk
      cases k with
      | zero =>
        simp only [List.getElem?_cons_zero, Option.some.injEq] at hk
        subst hk
        exact ⟨j, hj, by simp⟩
      | succ k2 =>
        simp only [List.getElem?_cons_succ] at hk
        obtain ⟨j2, hj2, hhs⟩ := hidx k2 q hk
        exact ⟨j2, hj2, by simpa using hhs⟩

theorem eachAppend_ok_of_forall {α β : Type} {f : β → Except Err (List (Field α))} :
    ∀ (l : List β), (∀ b ∈ l, ∃ fs, f b = .ok fs) →
    ∃ out, eachAppend f l = .ok out := by
  intro l
  induction l with
  | nil => exact fun _ => ⟨[], rfl⟩
  | cons b rest ih =>
    intro h
    obtain ⟨fs, hfs⟩ := h b (by simp)
    obtain ⟨out, hout⟩ := ih (fun q hq => h q (List.mem_cons_of_mem _ hq))
    exact ⟨fs ++ out, by simp only [eachAppend, hfs, ebind, hout]⟩

theorem uv_fallback_ok {α : Type} [LinearOrderedField α]
    {positions normals : List (Vec3 α)} :
    ∀ l : List Nat, (∀ i ∈ l, i < positions.length ∧ i < normals.length) →
    ∃ fs, uv_fallback positions normals l = .ok fs := by
  intro l
  induction l with
  | nil => exact fun _ => ⟨[], rfl⟩
  | cons i rest ih =>
    intro h
    obtain ⟨hp, hn⟩ := h i (by simp)
    obtain ⟨fs, hfs⟩ := ih (fun j hj => h j (List.mem_cons_of_mem _ hj))
    refine ⟨[Field.f32le (generate_uv positions[i] normals[i]).1,
             Field.f32le (generate_uv positions[i] normals[i]).2] ++ fs, ?_⟩
    simp only [uv_fallback, idxPanic_ok_of_lt hp, idxPanic_ok_of_lt hn, ebind, hfs]

theorem uv_fallback_error_panic {α : Type} [LinearOrderedField α]
    {positions normals : List (Vec3 α)} :
    ∀ {l : List Nat} {e : Err}, uv_fallback positions normals l = .error e →
    ∃ m, e = .panic m := by
  intro l
  induction l with
  | nil => intro e h; simp [uv_fallback] at h
  | cons i rest ih =>
    intro e h
    rw [uv_fallback, ebind_error_iff] at h
    rcases h with h | ⟨b, _, h⟩
    · exact idxPanic_error_panic h
    · rw [ebind_error_iff] at h
      rcases h with h | ⟨b2, _, h⟩
      · exact idxPanic_error_panic h
      · rw [ebind_error_iff] at h
        rcases h with h | ⟨b3, _, h⟩
        · exact ih h
        · simp at h

theorem writeTriangles_error_panic_bounded {α : Type} {ds : Bool} :
    ∀ (n : Nat) (l : List Nat), l.length ≤ n → ∀ e : Err,
    writeTriangles (α := α) ds l = .error e → ∃ m, e = .panic m := by
  intro n
  induction n with
  | zero =>
    intro l hl e h
    have hnil : l = [] := List.length_eq_zero.mp (Nat.le_zero.mp hl)
    subst hnil
    simp [writeTriangles] at h
  | succ k ih =>
    intro l hl e h
    rcases l with _ | ⟨i0, _ | ⟨i1, _ | ⟨i2, rest⟩⟩⟩
    · simp [writeTriangles] at h
    · simp only [writeTriangles, Except.error.injEq] at h
      exact ⟨_, h.symm⟩
    · simp only [writeTriangles, Except.error.injEq] at h
      exact ⟨_, h.symm⟩
    · rw [writeTriangles, ebind_error_iff] at h
      rcases h with h | ⟨a, _, h⟩
      · exact tryIntoU16_error_panic h
      · rw [ebind_error_iff] at h
        rcases h with h | ⟨b, _, h⟩
        · exact tryIntoU16_error_panic h
        · rw [ebind_error_iff] at h
          rcases h with h | ⟨c, _, h⟩
          · exact tryIntoU16_error_panic h
          · rw [ebind_error_iff] at h
            rcases h with h | ⟨d, _, h⟩
            · refine ih rest ?_ e h
              simp only [List.length_cons] at hl
              omega
            · simp at h

theorem writeTriangles_error_panic {α : Type} {ds : Bool} {l : List Nat} {e : Err}
    (h : writeTriangles (α := α) ds l = .error e) : ∃ m, e = .panic m :=
  writeTriangles_error_panic_bounded l.length l (le_refl _) e h

theorem writePlanes_error_panic_bounded {α : Type} [LinearOrderedField α] {sqrt : α → α}
    {ps : List (Vec3 α)} {t : Matrix3 α} :
    ∀ (n : Nat) (l : List Nat), l.length ≤ n → ∀ e : Err,
    writePlanes sqrt ps t l = .error e → ∃ m, e = .panic m := by
  intro n
  induction n with
  | zero =>
    intro l hl e h
    have hnil : l = [] := List.length_eq_zero.mp (Nat.le_zero.mp hl)
    subst hnil
    simp [writePlanes] at h
  | succ k ih =>
    intro l hl e h
    rcases l with _ | ⟨i0, _ | ⟨i1, _ | ⟨i2, rest⟩⟩⟩
    · simp [writePlanes] at h
    · simp only [writePlanes, Except.error.injEq] at h
      exact ⟨_, h.symm⟩
    · simp only [writePlanes, Except.error.injEq] at h
      exact ⟨_, h.symm⟩
    · rw [writePlanes, ebind_error_iff] at h
      rcases h with h | ⟨a, _, h⟩
      · exact idxPanic_error_panic h
      · rw [ebind_error_iff] at h
        rcases h with h | ⟨b, _, h⟩
        · exact idxPanic_error_panic h
        · rw [ebind_error_iff] at h
          rcases h with h | ⟨c, _, h⟩
          · exact idxPanic_error_panic h
          · rw [ebind_error_iff] at h
            rcases h with h | ⟨d, _, h⟩
            · refine ih rest ?_ e h
              simp only [List.length_cons] at hl
              omega
            · simp at h

theorem writePlanes_error_panic {α : Type} [LinearOrderedField α] {sqrt : α → α}
    {ps : List (Vec3 α)} {t : Matrix3 α} {l : List Nat} {e : Err}
    (h : writePlanes sqrt ps t l = .error e) : ∃ m, e = .panic m :=
  writePlanes_error_panic_bounded l.length l (le_refl _) e h

theorem writePlanes_ok_bound_bounded {α : Type} [LinearOrderedField α] {sqrt : α → α}
    {ps : List (Vec3 α)} {t : Matrix3 α} :
    ∀ (n : Nat) (l : List Nat), l.length ≤ n → ∀ fs,
    writePlanes sqrt ps t l = .ok fs → ∀ x ∈ l, x < ps.length := by
  intro n
  induction n with
  | zero =>
    intro l hl fs h x hx
    have hnil : l = [] := List.length_eq_zero.mp (Nat.le_zero.mp hl)
    subst hnil
    cases hx
  | succ k ih =>
    intro l hl fs h x hx
    rcases l with _ | ⟨i0, _ | ⟨i1, _ | ⟨i2, rest⟩⟩⟩
    · cases hx
    · simp [writePlanes] at h
    · simp [writePlanes] at h
    · rw [writePlanes, ebind_ok_iff] at h
      obtain ⟨q0, hq0, h⟩ := h
      rw [ebind_ok_iff] at h
      obtain ⟨q1, hq1, h⟩ := h
      rw [ebind_ok_iff] at h
      obtain ⟨q2, hq2, h⟩ := h
      rw [ebind_ok_iff] at h
      obtain ⟨restF, hrest, _⟩ := h
      rcases List.mem_cons.mp hx with h0 | hx2
      · subst h0
        exact idxPanic_ok_lt hq0
      · rcases List.mem_cons.mp hx2 with h1 | hx3
        · subst h1
          exact idxPanic_ok_lt hq1
        · rcases List.mem_cons.mp hx3 with h2 | hx4
          · subst h2
            exact idxPanic_ok_lt hq2
          · refine ih rest ?_ restF hrest x hx4
            simp only [List.length_cons] at hl
            omega

theorem writePlanes_ok_bound {α : Type} [LinearOrderedField α] {sqrt : α → α}
    {ps : List (Vec3 α)} {t : Matrix3 α} {l : List Nat} {fs : List (Field α)}
    (h : writePlanes sqrt ps t l = .ok fs) : ∀ x ∈ l, x < ps.length :=
  writePlanes_ok_bound_bounded l.length l (le_refl _) fs h

theorem writeBatchBlocks_ok_length {α : Type} [LinearOrderedField α] {sqrt : α → α}
    {prim : Primitive α} {t : Matrix3 α} {blocks : List (List (Field α))}
    (h : writeBatchBlocks sqrt prim t = .ok blocks) : blocks.length = 7 := by
  rw [writeBatchBlocks, ebind_ok_iff] at h
  obtain ⟨ps, _, h⟩ := h
  rw [ebind_ok_iff] at h
  obtain ⟨ns, _, h⟩ := h
  rw [ebind_ok_iff] at h
  obtain ⟨uv, _, h⟩ := h
  rw [ebind_ok_iff] at h
  obtain ⟨is, _, h⟩ := h
  rw [ebind_ok_iff] at h
  obtain ⟨u, _, h⟩ := h
  rw [ebind_ok_iff] at h
  obtain ⟨tb, _, h⟩ := h
  rw [ebind_ok_iff] at h
  obtain ⟨pb, _, h⟩ := h
  simp only [Except.ok.injEq] at h
  rw [← h]
  rfl

theorem foldl_appendBlockB_fst {α : Type} (blocks : List (List (Field α))) :
    ∀ s : List (Field α) × List Nat,
    (blocks.foldl appendBlockB s).1 = blocks.foldl (fun b blk => pad16 (b ++ blk)) s.1 := by
  induction blocks with
  | nil => intro s; rfl
  | cons blk bs ih =>
    intro s
    simp only [List.foldl_cons, ih, appendBlockB]

theorem foldl_appendBlockB_snd_aligned {α : Type} (blocks : List (List (Field α))) :
    ∀ s : List (Field α) × List Nat, (∀ o ∈ s.2, o % 16 = 0) →
    ∀ o ∈ (blocks.foldl appendBlockB s).2, o % 16 = 0 := by
  induction blocks with
  | nil => exact fun s h => h
  | cons blk bs ih =>
    intro s h
    apply ih
    intro o ho
    simp only [appendBlockB, List.mem_append, List.mem_singleton] at ho
    rcases ho with ho | ho
    · exact h o ho
    · rw [ho]
      exact bufSize_pad16 _

theorem foldl_appendBlockB_snd_length {α : Type} (blocks : List (List (Field α))) :
    ∀ s : List (Field α) × List Nat,
    (blocks.foldl appendBlockB s).2.length = s.2.length + blocks.length := by
  induction blocks with
  | nil => intro s; simp
  | cons blk bs ih =>
    intro s
    have h1 : (appendBlockB s blk).2.length = s.2.length + 1 := by
      simp [appendBlockB]
    rw [List.foldl_cons, ih, h1, List.length_cons]
    omega

theorem write_v3d_batch_dataB_sim {α : Type} [LinearOrderedField α] {sqrt : α → α}
    {t : Matrix3 α} {prim : Primitive α} {s : List (Field α) × List Nat}
    {out : List (Field α)} (h : write_v3d_batch_data sqrt s.1 prim t = .ok out) :
    ∃ offs, write_v3d_batch_dataB sqrt s prim t = .ok (out, offs) ∧
      ((∀ o ∈ s.2, o % 16 = 0) → ∀ o ∈ offs, o % 16 = 0) ∧
      offs.length = s.2.length + 7 := by
  rw [write_v3d_batch_data, ebind_ok_iff] at h
  obtain ⟨blocks, hbl, hout⟩ := h
  simp only [Except.ok.injEq] at hout
  refine ⟨(blocks.foldl appendBlockB s).2, ?_, ?_, ?_⟩
  · rw [write_v3d_batch_dataB, ebind_ok_iff]
    refine ⟨blocks, hbl, ?_⟩
    rw [← hout, ← foldl_appendBlockB_fst]
  · exact fun ha => foldl_appendBlockB_snd_aligned blocks s ha
  · rw [foldl_appendBlockB_snd_length, writeBatchBlocks_ok_length hbl]

theorem foldBatchDataB_sim {α : Type} [LinearOrderedField α] {sqrt : α → α} {t : Matrix3 α} :
    ∀ (l : List (Primitive α)) (s : List (Field α) × List Nat) (out : List (Field α)),
    foldBatchData sqrt t s.1 l = .ok out →
    ∃ offs, foldBatchDataB sqrt t s l = .ok (out, offs) ∧
      ((∀ o ∈ s.2, o % 16 = 0) → ∀ o ∈ offs, o % 16 = 0) ∧
      offs.length = s.2.length + 7 * l.length := by
  intro l
  induction l with
  | nil =>
    intro s out h
    simp only [foldBatchData, Except.ok.injEq] at h
    refine ⟨s.2, ?_, fun ha => ha, by simp⟩
    simp only [foldBatchDataB, ← h]
  | cons p rest ih =>
    intro s out h
    rw [foldBatchData, ebind_ok_iff] at h
    obtain ⟨b1, hb1, hrest⟩ := h
    obtain ⟨offs1, hB1, hal1, hlen1⟩ := write_v3d_batch_dataB_sim (s := s) hb1
    obtain ⟨offs, hB, hal, hlen⟩ := ih (b1, offs1) out hrest
    refine ⟨offs, ?_, fun ha => hal (hal1 ha), ?_⟩
    · rw [foldBatchDataB, ebind_ok_iff]
      exact ⟨(b1, offs1), hB1, hB⟩
    · simp only [hlen, hlen1, List.length_cons]
      omega

theorem bounding_sphere_fold_spec {α : Type} [LinearOrderedField α] (sqrt : α → α)
    (t : Matrix3 α) :
    ∀ (l : List (Primitive α)) (a : α), (∀ p ∈ l, p.positions.isSome) →
    ∃ r, bounding_sphere_fold sqrt t a l = .ok r ∧ a ≤ r ∧
      (∀ p ∈ l, ∀ ps, p.positions = some ps → ∀ v ∈ ps,
        get_vector_len sqrt (transform_point v t) ≤ r) ∧
      (r = a ∨ ∃ p ∈ l, ∃ ps, p.positions = some ps ∧ ∃ v ∈ ps,
        r = get_vector_len sqrt (transform_point v t)) := by
  intro l
  induction l with
  | nil =>
    intro a _
    refine ⟨a, rfl, le_refl _, ?_, Or.inl rfl⟩
    intro p hp
    cases hp
  | cons p rest ih =>
    intro a h
    obtain ⟨ps0, hps0⟩ := Option.isSome_iff_exists.mp (h p (by simp))
    obtain ⟨r, hr, har, hbound, hcase⟩ :=
      ih (ps0.foldl (fun r pos => max r (get_vector_len sqrt (transform_point pos t))) a)
        (fun q hq => h q (List.mem_cons_of_mem _ hq))
    refine ⟨r, ?_, ?_, ?_, ?_⟩
    · simp only [bounding_sphere_fold, hps0]
      exact hr
    · exact le_trans (le_foldl_max _ ps0 a) har
    · intro q hq qs hqs v hv
      rcases List.mem_cons.mp hq with h1 | h2
      · subst h1
        rw [hps0] at hqs
        injection hqs with hqs
        subst hqs
        exact le_trans
          (foldl_max_of_mem (f := fun pos => get_vector_len sqrt (transform_point pos t)) hv a)
          har
      · exact hbound q h2 qs hqs v hv
    · rcases hcase with hc | ⟨q, hq, qs, hqs, v, hv, he⟩
      · rcases foldl_max_eq_or (fun pos => get_vector_len sqrt (transform_point pos t)) ps0 a
          with h2 | ⟨v, hv, he2⟩
        · left
          rw [hc, h2]
        · right
          exact ⟨p, by simp, ps0, hps0, v, hv, by rw [hc, he2]⟩
      · right
        exact ⟨q, List.mem_cons_of_mem _ hq, qs, hqs, v, hv, he⟩

theorem flatten_uniform_take {γ : Type} :
    ∀ (hs : List (List γ)) (i : Nat) (e : List γ) (suffix : List γ),
    (∀ x ∈ hs, x.length = 3) → hs[i]? = some e →
    ((hs.flatten ++ suffix).drop (3 * i)).take 3 = e := by
  intro hs
  induction hs with
  | nil => intro i e suffix _ h; simp at h
  | cons h0 hs ih =>
    intro i e suffix hlen h
    cases i with
    | zero =>
      simp only [List.getElem?_cons_zero, Option.some.injEq] at h
      subst h
      have h3 : h0.length = 3 := hlen h0 (by simp)
      simp only [Nat.mul_zero, List.drop_zero, List.flatten_cons, List.append_assoc]
      rw [← h3]
      exact List.take_left h0 _
    | succ i2 =>
      simp only [List.getElem?_cons_succ] at h
      have h3 : h0.length = 3 := hlen h0 (by simp)
      have step : ((h0 :: hs).flatten ++ suffix).drop (3 * (i2 + 1))
          = (hs.flatten ++ suffix).drop (3 * i2) := by
        have : 3 * (i2 + 1) = 3 + 3 * i2 := by ring
        rw [this, ← List.drop_drop]
        congr 1
        simp only [List.flatten_cons, List.append_assoc]
        rw [← h3]
        exact List.drop_left h0 _
      rw [step]
      exact ih i2 e suffix (fun x hx => hlen x (List.mem_cons_of_mem _ hx)) h

/-! ## Claim theorems -/

/-- C7: for every material, the packed render state equals
texSrc + (colorOp<<5) + (alphaOp<<10) + (alphaBlend<<15) + (zBuffer<<20) +
(fog<<25) with colorOp = 2, alphaOp = 3, fog = 0, texSrc = Clamp (2)
exactly when a base-color texture exists with ClampToEdge S-wrap and
Wrap (1) otherwise, alphaBlend = 3 exactly for alpha mode Blend and 0
otherwise, zBuffer = 4 exactly for Opaque and 5 otherwise; an opaque
material without texture (hence Wrap) packs to 0x400C41. -/
theorem c7_render_state_packing :
    (∀ (α : Type) (m : Material α),
      compute_render_state_for_material m = packRenderStateSpec m) ∧
    compute_render_state_for_material
      { base_color_texture := none, alpha_mode := AlphaMode.Opaque, double_sided := false,
        emissive_factor := ((0 : ℚ), 0, 0) } = 0x400C41 := by
  constructor
  · intro α m
    rcases m with ⟨bct, am, ds, ef⟩
    rcases bct with _ | ⟨iname, iuri, ⟨ws, wt⟩⟩
    · cases am <;> simp [compute_render_state_for_material, packRenderStateSpec]
    · cases ws <;> cases am <;>
        simp [compute_render_state_for_material, packRenderStateSpec]
  · decide

/-- C9 counterexample: `transform_normal` under the identity linear map is
not the identity function: it renormalizes, so the vector (2,0,0) is
mapped to (1,0,0). -/
theorem c9_counterexample :
    transform_normal Real.sqrt (⟨2, 0, 0⟩ : Vec3 ℝ) identity_matrix3 = ⟨1, 0, 0⟩ ∧
    (⟨1, 0, 0⟩ : Vec3 ℝ) ≠ (⟨2, 0, 0⟩ : Vec3 ℝ) := by
  have h4 : Real.sqrt 4 = 2 := by
    rw [show (4 : ℝ) = 2 ^ 2 by norm_num, Real.sqrt_sq (by norm_num : (0 : ℝ) ≤ 2)]
  constructor
  · simp only [transform_normal, transform_vector, identity_matrix3, get_vector_len]
    norm_num
    rw [h4]
    norm_num [Vec3.mk.injEq]
  · norm_num [Vec3.mk.injEq]

/-- C9 (amended): `transform_point` under the identity linear map is the
identity on every vector; `transform_normal` under the identity map
divides the vector by its computed length, hence equals the identity
exactly on vectors whose computed length is 1. -/
theorem c9_amended_identity_transforms :
    ∀ v : Vec3 ℝ,
    transform_point v identity_matrix3 = v ∧
    transform_normal Real.sqrt v identity_matrix3 =
      ⟨v.x / get_vector_len Real.sqrt v, v.y / get_vector_len Real.sqrt v,
       v.z / get_vector_len Real.sqrt v⟩ ∧
    (get_vector_len Real.sqrt v = 1 → transform_normal Real.sqrt v identity_matrix3 = v) := by
  intro v
  have hp : transform_point v identity_matrix3 = v := by
    rcases v with ⟨x, y, z⟩
    simp [transform_point, transform_vector, identity_matrix3]
  have hv : transform_vector v identity_matrix3 = v := hp
  have hn : transform_normal Real.sqrt v identity_matrix3 =
      ⟨v.x / get_vector_len Real.sqrt v, v.y / get_vector_len Real.sqrt v,
       v.z / get_vector_len Real.sqrt v⟩ := by
    simp only [transform_normal, hv]
  refine ⟨hp, hn, ?_⟩
  intro h1
  rw [hn, h1]
  simp only [div_one]

/-- C9 witness: at the unit vector (1,0,0) both transform functions under
the identity map return the vector unchanged. -/
theorem c9_amended_witness :
    transform_point (⟨1, 0, 0⟩ : Vec3 ℝ) identity_matrix3 = ⟨1, 0, 0⟩ ∧
    transform_normal Real.sqrt (⟨1, 0, 0⟩ : Vec3 ℝ) identity_matrix3 = ⟨1, 0, 0⟩ := by
  have hlen : get_vector_len Real.sqrt (⟨1, 0, 0⟩ : Vec3 ℝ) = 1 := by
    simp only [get_vector_len]
    norm_num [Real.sqrt_one]
  obtain ⟨h1, _, h3⟩ := c9_amended_identity_transforms ⟨1, 0, 0⟩
  exact ⟨h1, h3 hlen⟩

/-- C4 counterexample: the emitted material record does not end after the
32-byte reserved region; it carries a trailing 4-byte flags field with
value 0x11, for a total of 84 bytes instead of the claimed 80. -/
theorem c4_counterexample :
    write_v3d_material "wall.tga" (0 : ℚ) =
      .ok [Field.chars "wall.tga" 32, Field.f32le 0, Field.f32le 0, Field.f32le 0, Field.f32le 0,
           Field.raw (List.replicate 32 0), Field.u32le 0x11] ∧
    bufSize [Field.chars ("wall.tga" : String) 32, Field.f32le (0 : ℚ), Field.f32le 0,
             Field.f32le 0, Field.f32le 0, Field.raw (List.replicate 32 0), Field.u32le 0x11]
      = 84 ∧
    (84 : Nat) ≠ 80 :=
  ⟨by rfl, by decide, by decide⟩

/-- C4 (amended): every emitted material record consists of the 32-byte
NUL-padded texture name, the f32 emissive factor, three reserved zero f32
fields, a 32-byte reserved region, and one final 4-byte little-endian
flags field with value 0x11 — 84 bytes in total. -/
theorem c4_amended_material_record_layout :
    ∀ (α : Type) [inst : Zero α] (tex_name : String) (emissive_factor : α),
    tex_name.utf8ByteSize < 32 →
    write_v3d_material tex_name emissive_factor =
      .ok [Field.chars tex_name 32, Field.f32le emissive_factor, Field.f32le 0, Field.f32le 0,
           Field.f32le 0, Field.raw (List.replicate 32 0), Field.u32le 0x11] ∧
    bufSize [Field.chars (α := α) tex_name 32, Field.f32le emissive_factor, Field.f32le 0,
             Field.f32le 0, Field.f32le 0, Field.raw (List.replicate 32 0), Field.u32le 0x11]
      = 84 := by
  intro α inst tex_name e h
  constructor
  · simp only [write_v3d_material, write_char_array]
    rw [if_neg (by omega)]
    simp [ebind]
  · simp [bufSize, Field.size]

/-- C4 witness: the amended record layout at the name `metal.tga` and
emissive factor 1. -/
theorem c4_amended_witness :
    write_v3d_material "metal.tga" (1 : ℚ) =
      .ok [Field.chars "metal.tga" 32, Field.f32le 1, Field.f32le 0, Field.f32le 0, Field.f32le 0,
           Field.raw (List.replicate 32 0), Field.u32le 0x11] :=
  (c4_amended_material_record_layout ℚ "metal.tga" 1 (by decide)).1

/-- C1 (code bug evaluation): the coded vertex guard accepts a primitive
with 5233 vertices although the documented limit — repeated in the error
message itself — is 5232; a primitive with 6001 vertices is rejected with
a message that names the limit 5232 while the guard fires only above
6000. -/
theorem c1_vertex_guard_evaluation :
    (write_v3d_batch_info prim5233).isOk = true ∧
    write_v3d_batch_info prim6001 =
      .error (.validation "primitive has too many vertices: 6001 (limit 5232)") := by
  constructor
  · have hvc : get_primitive_vertex_count prim5233 = 5233 := by
      show ((some (zeroVec3s 5233)).map List.length).getD 0 = 5233
      rw [Option.map_some', Option.getD_some, zeroVec3s, List.length_replicate]
    have hmode : prim5233.mode = Mode.Triangles := rfl
    have hidx : prim5233.indices = some [0, 0, 0] := rfl
    simp [write_v3d_batch_info, hmode, hidx, hvc, rustAssert, tryIntoU16, ebind, Except.isOk,
      Except.toBool]
  · have hvc : get_primitive_vertex_count prim6001 = 6001 := by
      show ((some (zeroVec3s 6001)).map List.length).getD 0 = 6001
      rw [Option.map_some', Option.getD_some, zeroVec3s, List.length_replicate]
    have hmode : prim6001.mode = Mode.Triangles := rfl
    have hidx : prim6001.indices = some [0, 0, 0] := rfl
    simp [write_v3d_batch_info, hmode, hidx, hvc, rustAssert, ebind]
    rfl

/-- C5 counterexample: for a node transform translated to (1,0,0) with an
identity linear block and a single vertex at local position (1,0,0) — so
the transformed vertex coincides with the supplied origin — the code
writes radius 1 (the plain length of the transformed vertex), not the
claimed 0 (its distance from the origin). -/
theorem c5_counterexample :
    (extract_translation_from_matrix translatedMatrix4).1 = ⟨1, 0, 0⟩ ∧
    compute_mesh_bounding_sphere_radius Real.sqrt meshUnitX
      (extract_translation_from_matrix translatedMatrix4).2 = .ok 1 ∧
    spec_bounding_sphere_radius Real.sqrt (extract_translation_from_matrix translatedMatrix4).1
      meshUnitX (extract_translation_from_matrix translatedMatrix4).2 = .ok 0 ∧
    (1 : ℝ) ≠ 0 := by
  refine ⟨by simp [extract_translation_from_matrix, translatedMatrix4], ?_, ?_, by norm_num⟩
  · simp only [compute_mesh_bounding_sphere_radius, bounding_sphere_fold, meshUnitX,
      extract_translation_from_matrix, translatedMatrix4, transform_point, transform_vector,
      get_vector_len, List.foldl_cons, List.foldl_nil]
    norm_num [Real.sqrt_one]
  · simp only [spec_bounding_sphere_radius, spec_bounding_sphere_fold, meshUnitX,
      extract_translation_from_matrix, translatedMatrix4, transform_point, transform_vector,
      get_vector_len, List.foldl_cons, List.foldl_nil]
    norm_num [Real.sqrt_zero]

/-- C5 (amended): for every mesh all of whose primitives carry position
data, the written bounding-sphere radius is the maximum plain Euclidean
length of the transformed vertices — the distance from the coordinate
origin (0,0,0), not from the supplied origin, which is written to the
output but never enters the radius computation; a mesh whose single
vertex transforms to (0,0,0) yields radius 0. -/
theorem c5_amended_bounding_sphere_radius :
    ∀ (mesh : Mesh ℝ) (t : Matrix3 ℝ),
    (∀ p ∈ mesh.primitives, p.positions.isSome) →
    ∃ r, compute_mesh_bounding_sphere_radius Real.sqrt mesh t = .ok r ∧
      0 ≤ r ∧
      (∀ p ∈ mesh.primitives, ∀ ps, p.positions = some ps → ∀ v ∈ ps,
        get_vector_len Real.sqrt (transform_point v t) ≤ r) ∧
      (r = 0 ∨ ∃ p ∈ mesh.primitives, ∃ ps, p.positions = some ps ∧ ∃ v ∈ ps,
        r = get_vector_len Real.sqrt (transform_point v t)) ∧
      (∀ origin : Vec3 ℝ, write_v3d_bounding_sphere Real.sqrt mesh origin t =
        .ok [Field.f32le origin.x, Field.f32le origin.y, Field.f32le origin.z, Field.f32le r]) ∧
      (∀ p v, mesh.primitives = [p] → p.positions = some [v] →
        transform_point v t = ⟨0, 0, 0⟩ → r = 0) := by
  intro mesh t h
  obtain ⟨r, hr, h0r, hbound, hcase⟩ := bounding_sphere_fold_spec Real.sqrt t mesh.primitives 0 h
  refine ⟨r, hr, h0r, hbound, hcase, ?_, ?_⟩
  · intro origin
    simp only [write_v3d_bounding_sphere, compute_mesh_bounding_sphere_radius, hr, ebind]
  · intro p v hm hp hv
    rw [hm] at hr
    simp only [bounding_sphere_fold, hp, List.foldl_cons, List.foldl_nil] at hr
    rw [hv] at hr
    simp only [get_vector_len] at hr
    norm_num [Real.sqrt_zero] at hr
    exact hr.symm

/-- C5 witness: the mesh with a single vertex whose transformed position
is (0,0,0) yields radius 0. -/
theorem c5_amended_witness :
    ∃ r, compute_mesh_bounding_sphere_radius Real.sqrt meshZero identity_matrix3 = .ok r ∧
      r = 0 := by
  obtain ⟨r, hr, _, _, _, _, hzero⟩ :=
    c5_amended_bounding_sphere_radius meshZero identity_matrix3 (by simp [meshZero])
  refine ⟨r, hr, hzero _ ⟨0, 0, 0⟩ rfl rfl ?_⟩
  simp [transform_point, transform_vector, identity_matrix3]

/-- Auxiliary for C10 and C6: every failure of `writeBatchBlocks` is a
panic, never a recoverable validation error. -/
theorem writeBatchBlocks_error_panic {α : Type} [LinearOrderedField α] {sqrt : α → α}
    {prim : Primitive α} {t : Matrix3 α} {e : Err}
    (h : writeBatchBlocks sqrt prim t = .error e) : ∃ m, e = .panic m := by
  rw [writeBatchBlocks, ebind_error_iff] at h
  rcases h with h | ⟨ps, hps, h⟩
  · exact ⟨_, unwrapOr_error_panic h⟩
  rw [ebind_error_iff] at h
  rcases h with h | ⟨ns, hns, h⟩
  · exact ⟨_, unwrapOr_error_panic h⟩
  rw [ebind_error_iff] at h
  rcases h with h | ⟨uv, huv, h⟩
  · cases ht : prim.tex_coords with
    | some uvs =>
      rw [ht] at h
      simp at h
    | none =>
      rw [ht] at h
      exact uv_fallback_error_panic h
  rw [ebind_error_iff] at h
  rcases h with h | ⟨is, his, h⟩
  · exact ⟨_, unwrapOr_error_panic h⟩
  rw [ebind_error_iff] at h
  rcases h with h | ⟨u, hu, h⟩
  · exact rustAssert_error_panic h
  rw [ebind_error_iff] at h
  rcases h with h | ⟨tb, htb, h⟩
  · exact writeTriangles_error_panic h
  rw [ebind_error_iff] at h
  rcases h with h | ⟨pb, hpb, h⟩
  · exact writePlanes_error_panic h
  · simp at h

/-- Auxiliary for C10: a successful `writeBatchBlocks` run contains a
successful triangle-plane block for the primitive's positions and
indices. -/
theorem writeBatchBlocks_ok_planes {α : Type} [LinearOrderedField α] {sqrt : α → α}
    {prim : Primitive α} {t : Matrix3 α} {blocks : List (List (Field α))}
    {ps : List (Vec3 α)} {is : List Nat}
    (h : writeBatchBlocks sqrt prim t = .ok blocks)
    (hps : prim.positions = some ps) (his : prim.indices = some is) :
    ∃ pb, writePlanes sqrt ps t is = .ok pb := by
  rw [writeBatchBlocks, ebind_ok_iff] at h
  obtain ⟨ps2, hps2, h⟩ := h
  rw [unwrapOr_ok_iff, hps] at hps2
  injection hps2 with hps2
  subst hps2
  rw [ebind_ok_iff] at h
  obtain ⟨ns, hns, h⟩ := h
  rw [ebind_ok_iff] at h
  obtain ⟨uv, huv, h⟩ := h
  rw [ebind_ok_iff] at h
  obtain ⟨is2, his2, h⟩ := h
  rw [unwrapOr_ok_iff, his] at his2
  injection his2 with his2
  subst his2
  rw [ebind_ok_iff] at h
  obtain ⟨u, hu, h⟩ := h
  rw [ebind_ok_iff] at h
  obtain ⟨tb, htb, h⟩ := h
  rw [ebind_ok_iff] at h
  obtain ⟨pb, hpb, h⟩ := h
  exact ⟨pb, hpb⟩

/-- C10: index values are never validated against the vertex count — for
every primitive whose index list contains a value at or above its number
of positions, batch data encoding terminates with a panic (out-of-bounds
position indexing while computing triangle planes, or an earlier failed
u16 conversion), never with a structured validation error. -/
theorem c10_unvalidated_indices_panic :
    ∀ (α : Type) [inst : LinearOrderedField α] (sqrt : α → α) (buf : List (Field α))
      (prim : Primitive α) (t : Matrix3 α) (ps : List (Vec3 α)) (is : List Nat) (x : Nat),
    prim.positions = some ps → prim.indices = some is → x ∈ is → ps.length ≤ x →
    ∃ msg, write_v3d_batch_data sqrt buf prim t = .error (.panic msg) ∧
      ∀ s, write_v3d_batch_data sqrt buf prim t ≠ .error (.validation s) := by
  intro α inst sqrt buf prim t ps is x hps his hx hlen
  cases hres : writeBatchBlocks sqrt prim t with
  | error e =>
    obtain ⟨m, hm⟩ := writeBatchBlocks_error_panic hres
    subst hm
    refine ⟨m, ?_, ?_⟩
    · rw [write_v3d_batch_data, hres]
      rfl
    · intro s hcontra
      rw [write_v3d_batch_data, hres] at hcontra
      simp [ebind] at hcontra
  | ok blocks =>
    obtain ⟨pb, hpb⟩ := writeBatchBlocks_ok_planes hres hps his
    have := writePlanes_ok_bound hpb x hx
    omega

/-- C10 witness: a primitive with one position but index value 1 makes
batch data encoding fail with a panic. -/
theorem c10_witness :
    ∃ msg, write_v3d_batch_data (fun q => q) ([] : List (Field ℚ)) primOobIndex identity_matrix3
        = .error (.panic msg) ∧
      ∀ s, write_v3d_batch_data (fun q => q) ([] : List (Field ℚ)) primOobIndex identity_matrix3
        ≠ .error (.validation s) :=
  c10_unvalidated_indices_panic ℚ (fun q => q) [] primOobIndex identity_matrix3
    [⟨0, 0, 0⟩] [0, 0, 1] 1 rfl rfl (by decide) (by decide)

/-- C6 (amended): a primitive without an index accessor does not produce
the structured non-indexed validation error: batch byte encoding runs
first and terminates with the panic "mesh has no indices" inside
`write_v3d_batch_data`; the structured check in `write_v3d_batch_info` is
unreachable for such primitives because `create_v3d_mesh_data` is invoked
before it. -/
theorem c6_amended_non_indexed_panic :
    ∀ (α : Type) [inst : LinearOrderedField α] (sqrt : α → α) (mesh : Mesh α)
      (textures : List String) (t : Matrix3 α) (p : Primitive α) (rest : List (Primitive α))
      (ps ns : List (Vec3 α)),
    mesh.primitives = p :: rest →
    p.positions = some ps → p.normals = some ns → ps.length ≤ ns.length →
    p.indices = none →
    write_v3d_lod_model sqrt mesh textures t = .error (.panic "mesh has no indices") ∧
    ∀ s, Err.panic "mesh has no indices" ≠ Err.validation s := by
  intro α inst sqrt mesh textures t p rest ps ns hm hp hn hlen hidx
  have hblocksErr : writeBatchBlocks sqrt p t = .error (.panic "mesh has no indices") := by
    cases ht : p.tex_coords with
    | some uvs =>
      simp only [writeBatchBlocks, hp, hn, ht, hidx, unwrapOr, ebind]
    | none =>
      obtain ⟨uvb, huvb⟩ := uv_fallback_ok (List.range ps.length)
        (fun i hi => ⟨List.mem_range.mp hi, lt_of_lt_of_le (List.mem_range.mp hi) hlen⟩)
      simp only [writeBatchBlocks, hp, hn, ht, hidx, unwrapOr, ebind, huvb]
  obtain ⟨hb, hhdrs⟩ := foldHeaders_ok_of_mem (lodTexturesOf mesh)
    mesh.primitives [] (fun q hq => List.mem_map_of_mem _ hq)
  have hbd : write_v3d_batch_data sqrt (pad16 hb) p t
      = .error (.panic "mesh has no indices") := by
    rw [write_v3d_batch_data, hblocksErr]
    rfl
  have hfold : foldBatchData sqrt t (pad16 hb) (p :: rest)
      = .error (.panic "mesh has no indices") := by
    simp only [foldBatchData, hbd, ebind]
  have hcreate : create_v3d_mesh_data sqrt mesh t (lodTexturesOf mesh)
      = .error (.panic "mesh has no indices") := by
    rw [create_v3d_mesh_data]
    simp only [hhdrs, ebind]
    rw [hm]
    simp only [hfold, ebind]
  constructor
  · simp only [write_v3d_lod_model, hcreate, ebind]
  · intro s
    simp

/-- C6 counterexample: on a mesh whose only primitive has positions,
normals and UVs but no indices, the LOD model writer terminates with the
panic "mesh has no indices" — not with the structured non-indexed
validation error the claim requires — and positions, normals and UVs of
the primitive were already encoded when the panic fires. -/
theorem c6_counterexample :
    write_v3d_lod_model (fun q => q) meshNoIndices ["Rck_Default.tga"] identity_matrix3
      = .error (.panic "mesh has no indices") ∧
    ∀ s, write_v3d_lod_model (fun q => q) meshNoIndices ["Rck_Default.tga"] identity_matrix3
      ≠ .error (.validation s) := by
  have h1 : write_v3d_lod_model (fun q => q) meshNoIndices ["Rck_Default.tga"] identity_matrix3
      = .error (.panic "mesh has no indices") := by rfl
  refine ⟨h1, fun s => ?_⟩
  rw [h1]
  simp

/-- C6 witness: the amended statement applied to the concrete one-primitive
mesh without indices. -/
theorem c6_amended_witness :
    write_v3d_lod_model (fun q => q) meshNoIndices ["Rck_Default.tga"] identity_matrix3
      = .error (.panic "mesh has no indices") :=
  (c6_amended_non_indexed_panic ℚ (fun q => q) meshNoIndices ["Rck_Default.tga"]
    identity_matrix3 primNoIndices [] [⟨0, 0, 0⟩] [⟨0, 0, 1⟩] rfl rfl rfl (by decide) rfl).1

/-- C2 counterexample: a node with eight primitives that all resolve to
the single texture name `x.tga` has a one-entry sorted deduplicated
texture table — at most 7 entries — yet the LOD model writer fails with
the texture-count validation error, because the coded check counts the
non-deduplicated per-primitive list. -/
theorem c2_counterexample :
    get_submesh_textures node8 = .ok ["x.tga"] ∧
    (1 : Nat) ≤ 7 ∧
    write_v3d_lod_model (fun q => q) mesh8 ["x.tga"] identity_matrix3
      = .error (.validation "found 8 textures in a submesh but only 7 are allowed") :=
  ⟨by rfl, by decide, by rfl⟩

/-- C2 (amended): given that the per-primitive validations and data
encoding succeed, the LOD model writer fails with the texture-count
validation error exactly when the number of primitives — the length of
the non-deduplicated per-primitive texture list, not the deduplicated
texture table — exceeds 7; with at most 7 primitives this check always
passes. -/
theorem c2_amended_texture_count_check :
    ∀ (α : Type) [inst : LinearOrderedField α] (sqrt : α → α) (node : Node α) (mesh : Mesh α)
      (textures : List String) (t : Matrix3 α) {bd inf : List (Field α)},
    node.mesh = some mesh →
    get_submesh_textures node = .ok textures →
    create_v3d_mesh_data sqrt mesh t (lodTexturesOf mesh) = .ok bd →
    eachAppend write_v3d_batch_info mesh.primitives = .ok inf →
    ((write_v3d_lod_model sqrt mesh textures t).isOk = true ↔ mesh.primitives.length ≤ 7) ∧
    (7 < mesh.primitives.length →
      write_v3d_lod_model sqrt mesh textures t = .error (.validation
        ("found " ++ toString mesh.primitives.length ++
         " textures in a submesh but only " ++ toString 7 ++ " are allowed"))) := by
  intro α inst sqrt node mesh textures t bd inf hnm htex hbd hinf
  have htex2 : textures = dedupConsec (sortStrs (lodTexturesOf mesh)) := by
    rw [get_submesh_textures, hnm] at htex
    simp only [unwrapOr, ebind, Except.ok.injEq] at htex
    exact htex.symm
  have hLlen : (lodTexturesOf mesh).length = mesh.primitives.length := by
    simp [lodTexturesOf]
  have herr : 7 < mesh.primitives.length → write_v3d_lod_model sqrt mesh textures t
      = .error (.validation ("found " ++ toString mesh.primitives.length ++
        " textures in a submesh but only " ++ toString 7 ++ " are allowed")) := by
    intro h7
    simp only [write_v3d_lod_model, hbd, ebind, hinf]
    rw [if_pos (by omega), hLlen]
  have hok : mesh.primitives.length ≤ 7 →
      (write_v3d_lod_model sqrt mesh textures t).isOk = true := by
    intro h7
    have hmemtex : ∀ name ∈ lodTexturesOf mesh, ∃ fs,
        write_v3d_lod_texture (α := α) textures name = .ok fs := by
      intro name hname
      have hmem : name ∈ textures := by
        rw [htex2, mem_dedupConsec, mem_sortStrs]
        exact hname
      obtain ⟨i, hi, hilt⟩ := positionIdx_of_mem hmem
      have hlt : i < 256 := by
        have h1 : textures.length ≤ (lodTexturesOf mesh).length := by
          rw [htex2]
          calc (dedupConsec (sortStrs (lodTexturesOf mesh))).length
              ≤ (sortStrs (lodTexturesOf mesh)).length := length_dedupConsec_le _
            _ = (lodTexturesOf mesh).length := length_sortStrs _
        omega
      exact ⟨[Field.u8 i, Field.str name, Field.u8 0], by
        simp only [write_v3d_lod_texture, hi, unwrapOr, ebind, tryIntoU8, if_pos hlt]⟩
    obtain ⟨texF, htexF⟩ := eachAppend_ok_of_forall _ hmemtex
    simp only [write_v3d_lod_model, hbd, ebind, hinf]
    rw [if_neg (by omega)]
    simp only [htexF, ebind, Except.isOk, Except.toBool]
  refine ⟨⟨?_, hok⟩, herr⟩
  intro hOk
  by_contra h7
  push_neg at h7
  rw [herr h7] at hOk
  simp [Except.isOk, Except.toBool] at hOk

/-- C2 witness: the amended check at the one-primitive node succeeds. -/
theorem c2_amended_witness :
    (write_v3d_lod_model (fun q => q) mesh1 ["Rck_Default.tga"] identity_matrix3).isOk
      = true := by
  have h := c2_amended_texture_count_check ℚ (fun q => q) node1 mesh1 ["Rck_Default.tga"]
    identity_matrix3 rfl (by rfl) (by rfl) (by rfl)
  exact h.1.mpr (by decide)

/-- C3 counterexample: with two primitives resolving to `b.tga` then
`a.tga`, the node's sorted deduplicated texture table is
`["a.tga", "b.tga"]`, in which the first primitive's name has index 1 —
yet the first batch header carries texture index 0, the position of the
name in the per-primitive list the code actually passes. -/
theorem c3_counterexample :
    get_submesh_textures nodeBA = .ok ["a.tga", "b.tga"] ∧
    positionIdx (fun tn => tn = "b.tga") ["a.tga", "b.tga"] = some 1 ∧
    (create_v3d_mesh_data (fun q => q) meshBA identity_matrix3 (lodTexturesOf meshBA)).map
        (fun out => out.take 3)
      = .ok [Field.raw (List.replicate 0x20 0), Field.i32le 0,
             Field.raw (List.replicate 0x14 0)] ∧
    (0 : Int) ≠ 1 :=
  ⟨by rfl, by rfl, by rfl, by decide⟩

/-- C3 (amended): for every primitive of a node, its 0x38-byte batch
header is 0x20 zero bytes, then the 4-byte little-endian index of the
first occurrence of the primitive's resolved texture name in the texture
list handed to `create_v3d_mesh_data` — which `write_v3d_lod_model` sets
to the per-primitive resolved-name list `lod_textures`, not the sorted
deduplicated table — then 0x14 zero bytes. -/
theorem c3_amended_batch_header_layout :
    ∀ (α : Type) [inst : LinearOrderedField α] (sqrt : α → α) (mesh : Mesh α) (t : Matrix3 α)
      (textures : List String) {out : List (Field α)} (i : Nat) (p : Primitive α),
    create_v3d_mesh_data sqrt mesh t textures = .ok out →
    mesh.primitives[i]? = some p →
    ∃ j, positionIdx (fun tn => tn = get_material_base_color_texture_name p.material)
        textures = some j ∧
      (out.drop (3 * i)).take 3 =
        [Field.raw (List.replicate 0x20 0), Field.i32le (Int.ofNat j),
         Field.raw (List.replicate 0x14 0)] := by
  intro α inst sqrt mesh t textures out i p hc hip
  rw [create_v3d_mesh_data, ebind_ok_iff] at hc
  obtain ⟨hdrs, hhdrs, hc⟩ := hc
  rw [ebind_ok_iff] at hc
  obtain ⟨buf2, hbuf2, hout⟩ := hc
  simp only [Except.ok.injEq] at hout
  obtain ⟨hs, hbeq, hlen, h3, hidx⟩ := foldHeaders_ok_structure mesh.primitives [] hdrs hhdrs
  obtain ⟨j, hj, hhs⟩ := hidx i p hip
  obtain ⟨t1, ht1⟩ := pad16_extends hdrs
  obtain ⟨t2, ht2⟩ := foldBatchData_extends hbuf2
  obtain ⟨t3, ht3⟩ := pad16_extends buf2
  have hout2 : out = hs.flatten ++ (t1 ++ (t2 ++ t3)) := by
    rw [← hout, ht3, ht2, ht1, hbeq]
    simp [List.append_assoc]
  rw [hout2]
  exact ⟨j, hj, flatten_uniform_take hs i _ _ h3 hhs⟩

/-- C3 witness: the amended header layout evaluated on the two-primitive
mesh, first primitive. -/
theorem c3_amended_witness :
    ∃ out j, create_v3d_mesh_data (fun q => q) meshBA identity_matrix3 (lodTexturesOf meshBA)
        = .ok out ∧
      positionIdx (fun tn => tn = get_material_base_color_texture_name
        (tinyPrim (texturedMaterial "b.png")).material) (lodTexturesOf meshBA) = some j ∧
      (out.drop (3 * 0)).take 3 =
        [Field.raw (List.replicate 0x20 0), Field.i32le (Int.ofNat j),
         Field.raw (List.replicate 0x14 0)] := by
  cases hc : create_v3d_mesh_data (fun q => q) meshBA identity_matrix3 (lodTexturesOf meshBA) with
  | error e =>
    have hok : (create_v3d_mesh_data (fun q => q) meshBA identity_matrix3
        (lodTexturesOf meshBA)).isOk = true := by rfl
    rw [hc] at hok
    simp [Except.isOk, Except.toBool] at hok
  | ok out =>
    obtain ⟨j, hj, ht⟩ := c3_amended_batch_header_layout ℚ (fun q => q) meshBA identity_matrix3
      (lodTexturesOf meshBA) 0 (tinyPrim (texturedMaterial "b.png")) hc rfl
    exact ⟨out, j, rfl, hj, ht⟩

/-- C8: within one LOD model's data section, every recorded sub-block
boundary — after the batch headers, after each of the seven per-primitive
sub-blocks (positions, normals, UVs, indices, triangle planes,
same-position offsets, bone links), and after the final padding — lies at
a byte offset that is a multiple of 16 from the data-section start. -/
theorem c8_block_alignment :
    ∀ (α : Type) [inst : LinearOrderedField α] (sqrt : α → α) (mesh : Mesh α) (t : Matrix3 α)
      (textures : List String) {out : List (Field α)},
    create_v3d_mesh_data sqrt mesh t textures = .ok out →
    ∃ offs, create_v3d_mesh_data_with_boundaries sqrt mesh t textures = .ok (out, offs) ∧
      (∀ o ∈ offs, o % 16 = 0) ∧
      offs.length = 2 + 7 * mesh.primitives.length := by
  intro α inst sqrt mesh t textures out hc
  rw [create_v3d_mesh_data, ebind_ok_iff] at hc
  obtain ⟨hdrs, hhdrs, hc⟩ := hc
  rw [ebind_ok_iff] at hc
  obtain ⟨buf2, hbuf2, hout⟩ := hc
  simp only [Except.ok.injEq] at hout
  obtain ⟨offs1, hB, hal, hlen⟩ :=
    foldBatchDataB_sim mesh.primitives (pad16 hdrs, [bufSize (pad16 hdrs)]) buf2 hbuf2
  refine ⟨offs1 ++ [bufSize (pad16 buf2)], ?_, ?_, ?_⟩
  · rw [create_v3d_mesh_data_with_boundaries, ebind_ok_iff]
    refine ⟨hdrs, hhdrs, ?_⟩
    rw [ebind_ok_iff]
    refine ⟨(buf2, offs1), hB, ?_⟩
    simp only [Except.ok.injEq, Prod.mk.injEq]
    exact ⟨hout, trivial⟩
  · intro o ho
    rcases List.mem_append.mp ho with ho | ho
    · refine hal ?_ o ho
      intro o2 ho2
      simp only [List.mem_singleton] at ho2
      rw [ho2]
      exact bufSize_pad16 _
    · simp only [List.mem_singleton] at ho
      rw [ho]
      exact bufSize_pad16 _
  · simp only [List.length_append, hlen, List.length_singleton, List.length_cons,
      List.length_nil]
    omega

/-- C8 witness: the boundary offsets recorded for the one-primitive mesh
are all multiples of 16. -/
theorem c8_witness :
    ∃ out offs, create_v3d_mesh_data_with_boundaries (fun q => q) mesh1 identity_matrix3
        (lodTexturesOf mesh1) = .ok (out, offs) ∧
      (∀ o ∈ offs, o % 16 = 0) ∧
      offs.length = 2 + 7 * mesh1.primitives.length := by
  cases hc : create_v3d_mesh_data (fun q => q) mesh1 identity_matrix3 (lodTexturesOf mesh1) with
  | error e =>
    have hok : (create_v3d_mesh_data (fun q => q) mesh1 identity_matrix3
        (lodTexturesOf mesh1)).isOk = true := by rfl
    rw [hc] at hok
    simp [Except.isOk, Except.toBool] at hok
  | ok out =>
    obtain ⟨offs, h1, h2, h3⟩ := c8_block_alignment ℚ (fun q => q) mesh1 identity_matrix3
      (lodTexturesOf mesh1) hc
    exact ⟨out, offs, h1, h2, h3⟩

end V3D
